import Mathlib

/-!
Optimal delivery hubs: a verification development.

Shallow embedding of `OptimalDeliveryHubs.cpp`.

Modelling conventions.

* A C++ `double` that holds a coordinate or a distance is a real number (`ℝ`): every
  arithmetic operation and every call of `sin`, `cos`, `sqrt`, `atan2` is exact.
  Statements proved here are statements about exact arithmetic, not about rounding; the
  rounding of double arithmetic and of the C library functions is outside this embedding.
* A C++ `double` that holds a score (the result of `1 / sum_dist`) is an extended real
  (`EReal`), because the division is performed also when `sum_dist` is `0`, where IEEE-754
  arithmetic yields `+inf`.
* The global counter `func_evals` is threaded explicitly through every cost evaluation, as
  an unbounded integer. The section on the program state models one call with the counter
  as the 32-bit `int` it is and with the caller's vector as part of the state.
* The `do ... while` loops of `main` are run with fuel; running out of fuel is `none`.
-/

namespace OptimalDeliveryHubs

noncomputable section

/-! ## Constants (`#define PI`, `#define R`) -/

/-- The source's `#define PI 3.141592653589793`: a decimal constant, not the number π. -/
def PI : ℝ := 3.141592653589793

/-- The source's `#define R 3958.75` (sphere radius in miles). -/
def R : ℝ := 3958.75

/-! ## `<cmath>` functions used by the source -/

/-- The C library `atan2 (y, x)` on real arguments: the angle in `(-π, π]` of the point
`(x, y)`, with `atan2 (0, 0) = 0`. -/
def atan2 (y x : ℝ) : ℝ :=
  if 0 < x then Real.arctan (y / x)
  else if x < 0 then
    (if 0 ≤ y then Real.arctan (y / x) + Real.pi else Real.arctan (y / x) - Real.pi)
  else if 0 < y then Real.pi / 2
  else if y < 0 then -(Real.pi / 2)
  else 0

/-- The C++ expression `1 / s` on doubles, for a divisor `s` that is `+0.0` or a nonzero
real: division by `+0.0` yields `+inf`. -/
def recip (s : ℝ) : EReal :=
  if s = 0 then ⊤ else ((1 / s : ℝ) : EReal)

/-! ## `calc_distance` -/

/-- The haversine term `a` computed in `calc_distance` (source line 52), inputs in degrees. -/
def haversine_a (lat1 long1 lat2 long2 : ℝ) : ℝ :=
  let diffLat := (lat2 - lat1) * PI / 180
  let diffLong := (long2 - long1) * PI / 180
  (Real.sin (diffLat / 2)) ^ 2
    + Real.cos (lat1 * PI / 180) * Real.cos (lat2 * PI / 180) * (Real.sin (diffLong / 2)) ^ 2

/-- The source's `calc_distance`: great-circle distance by the haversine formula. -/
def calc_distance (lat1 long1 lat2 long2 : ℝ) : ℝ :=
  let a := haversine_a lat1 long1 lat2 long2
  let c := 2 * atan2 (Real.sqrt a) (Real.sqrt (1 - a))
  R * c

/-! ## Data model -/

/-- The source's `struct Columns`: one row of the input file. -/
structure Columns where
  place : String
  type : String
  population : ℝ
  latitude : ℝ
  longitude : ℝ

/-! ## Cost functions -/

/-- The value of `sum_dist` after the `!improve` loop of `cost_function` (lines 81-84). -/
def sum_dist_round_trip (x_cost y_cost : ℝ) (dataVector : List Columns) : ℝ :=
  dataVector.foldl
    (fun sum_dist row => sum_dist + calc_distance row.latitude row.longitude x_cost y_cost) 0

/-- The `improve` loop of `cost_function` (lines 91-98) as a fold: the state is
`(sum_dist, x1, y1)`. -/
def chained_step (st : ℝ × ℝ × ℝ) (row : Columns) : ℝ × ℝ × ℝ :=
  let x2 := row.latitude
  let y2 := row.longitude
  (st.1 + calc_distance st.2.1 st.2.2 x2 y2, row.latitude, row.longitude)

/-- The value of `sum_dist` after the `improve` loop of `cost_function` (lines 88-98). -/
def sum_dist_chained (x_cost y_cost : ℝ) (dataVector : List Columns) : ℝ :=
  (dataVector.foldl chained_step (0, x_cost, y_cost)).1

/-- The source's `cost_function`. The last argument is the value of the global
`func_evals` before the call; the result is the returned score and the new counter. -/
def cost_function (x_cost y_cost : ℝ) (dataVector : List Columns) (improve : Bool)
    (func_evals : Int) : EReal × Int :=
  let sum_dist :=
    if !improve then sum_dist_round_trip x_cost y_cost dataVector
    else sum_dist_chained x_cost y_cost dataVector
  let f := recip sum_dist
  (f, func_evals + 1)

/-- The value of `sum_dist` after the loop of `cost_function_2hubs` (lines 115-125). -/
def sum_dist_2hubs (hub1_x_cost hub1_y_cost hub2_x_cost hub2_y_cost : ℝ)
    (dataVector : List Columns) : ℝ :=
  dataVector.foldl
    (fun sum_dist row =>
      if calc_distance row.latitude row.longitude hub1_x_cost hub1_y_cost
          < calc_distance row.latitude row.longitude hub2_x_cost hub2_y_cost then
        sum_dist + calc_distance row.latitude row.longitude hub1_x_cost hub1_y_cost
      else
        sum_dist + calc_distance row.latitude row.longitude hub2_x_cost hub2_y_cost) 0

/-- The source's `cost_function_2hubs`, with `func_evals` threaded as in `cost_function`. -/
def cost_function_2hubs (hub1_x_cost hub1_y_cost hub2_x_cost hub2_y_cost : ℝ)
    (dataVector : List Columns) (func_evals : Int) : EReal × Int :=
  let sum_dist := sum_dist_2hubs hub1_x_cost hub1_y_cost hub2_x_cost hub2_y_cost dataVector
  let f := recip sum_dist
  (f, func_evals + 1)

/-! ## The hill-climb loops of `main` -/

/-- The source's `step` (line 158). -/
def step : ℝ := 0.01

/-- The source's `step1` (line 338). -/
def step1 : ℝ := 0.01

/-- The source's `step2` (line 339). -/
def step2 : ℝ := 0.02

/-- The variables written by the neighbour loops of one round: `maxValue`, `dx`, `dy` and
the global `func_evals`. -/
structure Scan where
  maxValue : EReal
  dx : Int
  dy : Int
  func_evals : Int

/-- The variables of `main` that a single-hub hill climb reads and writes. The fields `dx`
and `dy` hold whatever the two `int`s contain when a round starts: they are declared
without an initial value (line 161) and are not reset between rounds or scenarios. -/
structure HubState where
  x : ℝ
  y : ℝ
  value : EReal
  dx : Int
  dy : Int
  iter : Int
  func_evals : Int

/-- The variables of `main` that the two-hub hill climb reads and writes. -/
structure TwoHubState where
  hub1_x : ℝ
  hub1_y : ℝ
  hub2_x : ℝ
  hub2_y : ℝ
  value : EReal
  dx : Int
  dy : Int
  iter : Int
  func_evals : Int

/-- The body of the inner `for` loop (lines 245-256, and 296-306 with `improve = true`)
for one pair `(i, j)`. -/
def scan_step (x y : ℝ) (data : List Columns) (improve : Bool) (acc : Scan) (i j : Int) :
    Scan :=
  if i = 0 ∧ j = 0 then acc
  else
    let r := cost_function (x + step * i) (y + step * j) data improve acc.func_evals
    let newValue := r.1
    if newValue ≥ acc.maxValue then
      { maxValue := newValue, dx := i, dy := j, func_evals := r.2 }
    else { acc with func_evals := r.2 }

/-- The two nested `for` loops (lines 242-258): `i` from -1 to 1, inside it `j` from -1
to 1. -/
def neighbour_scan (x y : ℝ) (data : List Columns) (improve : Bool) (acc : Scan) : Scan :=
  ([-1, 0, 1] : List Int).foldl
    (fun acc i => ([-1, 0, 1] : List Int).foldl
      (fun acc j => scan_step x y data improve acc i j) acc) acc

/-- One execution of the `do` body of a single-hub hill climb (lines 238-265; lines
290-314 with `improve = true`). -/
def hill_round (data : List Columns) (improve : Bool) (s : HubState) : HubState :=
  let oldValue := s.value
  let maxValue := oldValue
  let sc := neighbour_scan s.x s.y data improve
    { maxValue := maxValue, dx := s.dx, dy := s.dy, func_evals := s.func_evals }
  { x := s.x + step * sc.dx
    y := s.y + step * sc.dy
    value := sc.maxValue
    dx := sc.dx
    dy := sc.dy
    iter := s.iter + 1
    func_evals := sc.func_evals }

/-- The `do ... while (value > oldValue)` loop of a single-hub hill climb (lines 235-267
and 288-316), with fuel: `none` when the fuel runs out before the loop exits. -/
def hill_loop (data : List Columns) (improve : Bool) : Nat → HubState → Option HubState
  | 0, _ => none
  | fuel + 1, s =>
    let s1 := hill_round data improve s
    if s1.value > s.value then hill_loop data improve fuel s1 else some s1

/-- The body of the inner `for` loop of the two-hub hill climb (lines 349-359). -/
def scan_step_2hubs (hub1_x hub1_y hub2_x hub2_y : ℝ) (data : List Columns) (acc : Scan)
    (i j : Int) : Scan :=
  if i = 0 ∧ j = 0 then acc
  else
    let r := cost_function_2hubs (hub1_x + step1 * i) (hub1_y + step1 * j)
      (hub2_x + step2 * i) (hub2_y + step2 * j) data acc.func_evals
    let newValue := r.1
    if newValue ≥ acc.maxValue then
      { maxValue := newValue, dx := i, dy := j, func_evals := r.2 }
    else { acc with func_evals := r.2 }

/-- The two nested `for` loops of the two-hub hill climb (lines 346-361). -/
def neighbour_scan_2hubs (hub1_x hub1_y hub2_x hub2_y : ℝ) (data : List Columns)
    (acc : Scan) : Scan :=
  ([-1, 0, 1] : List Int).foldl
    (fun acc i => ([-1, 0, 1] : List Int).foldl
      (fun acc j => scan_step_2hubs hub1_x hub1_y hub2_x hub2_y data acc i j) acc) acc

/-- One execution of the `do` body of the two-hub hill climb (lines 343-369). -/
def hill_round_2hubs (data : List Columns) (s : TwoHubState) : TwoHubState :=
  let oldValue := s.value
  let maxValue := oldValue
  let sc := neighbour_scan_2hubs s.hub1_x s.hub1_y s.hub2_x s.hub2_y data
    { maxValue := maxValue, dx := s.dx, dy := s.dy, func_evals := s.func_evals }
  { hub1_x := s.hub1_x + step1 * sc.dx
    hub1_y := s.hub1_y + step1 * sc.dy
    hub2_x := s.hub2_x + step2 * sc.dx
    hub2_y := s.hub2_y + step2 * sc.dy
    value := sc.maxValue
    dx := sc.dx
    dy := sc.dy
    iter := s.iter + 1
    func_evals := sc.func_evals }

/-- The `do ... while (value > oldValue)` loop of the two-hub hill climb (lines 341-371),
with fuel. -/
def hill_loop_2hubs (data : List Columns) : Nat → TwoHubState → Option TwoHubState
  | 0, _ => none
  | fuel + 1, s =>
    let s1 := hill_round_2hubs data s
    if s1.value > s.value then hill_loop_2hubs data fuel s1 else some s1

/-! ## The bounding box and the start position -/

/-- The four accumulators of `min_max_finder`. -/
structure Bounds where
  min_x : ℝ
  min_y : ℝ
  max_x : ℝ
  max_y : ℝ

/-- The body of the loop of `min_max_finder` (lines 137-141). -/
def min_max_step (b : Bounds) (row : Columns) : Bounds :=
  let min_x := if row.latitude < b.min_x then row.latitude else b.min_x
  let max_x := if row.latitude > b.max_x then row.latitude else b.max_x
  let min_y := if row.longitude < b.min_y then row.longitude else b.min_y
  let max_y := if row.longitude > b.max_y then row.longitude else b.max_y
  { min_x := min_x, min_y := min_y, max_x := max_x, max_y := max_y }

/-- The source's `min_max_finder`. Its return type is `double`, and the operand of its
`return` is a comma expression, whose value is that of the last operand, `max_y`. -/
def min_max_finder (min_x min_y max_x max_y : ℝ) (dataVector : List Columns) : ℝ :=
  (dataVector.foldl min_max_step
    { min_x := min_x, min_y := min_y, max_x := max_x, max_y := max_y }).max_y

/-- The source's `random_number_generator`; the last argument is the value returned by its
call of `rand ()`. -/
def random_number_generator (upper lower : ℝ) (n : Int) (rand : Nat) : ℝ :=
  lower + ((((rand : Int) % (n + 1) : Int) : ℝ) * (1 / (n : ℝ)) * (upper - lower))

/-- The state in which `main` enters the round-trip hill climb (lines 220-232). `rand1` and
`rand2` are the values returned by the two calls of `rand ()`; `dx` and `dy` are the
contents of the two uninitialised `int`s. Line 225 is a comma expression whose only
assignment is `max_long = min_max_finder (...)`. -/
def main_round_trip_start (data : List Columns) (rand1 rand2 : Nat) (dx dy : Int) :
    HubState :=
  let min_lat : ℝ := 0
  let min_long : ℝ := 0
  let max_lat : ℝ := 0
  let max_long : ℝ := 0
  let max_long := min_max_finder min_lat min_long max_lat max_long data
  let x := random_number_generator max_lat min_lat 100 rand1
  let y := random_number_generator max_long min_long 100 rand2
  let r := cost_function x y data false 0
  { x := x, y := y, value := r.1, dx := dx, dy := dy, iter := 0, func_evals := r.2 }

/-! ## The scenarios of `main` -/

/-- The four bounding-box variables of `main` after line 225. The statement
`min_lat, min_long, max_lat, max_long = min_max_finder (...)` is a comma expression: its
only assignment stores the returned number in `max_long`; the other three variables keep
their initial value 0. -/
def main_bounding_box (data : List Columns) : Bounds :=
  let min_lat : ℝ := 0
  let min_long : ℝ := 0
  let max_lat : ℝ := 0
  let max_long : ℝ := 0
  let max_long := min_max_finder min_lat min_long max_lat max_long data
  { min_x := min_lat, min_y := min_long, max_x := max_lat, max_y := max_long }

/-- The state in which `main` enters the chained hill climb (lines 279-286). `prev` is the
state in which the round-trip scenario ended: `dx`, `dy` and `func_evals` are not
re-initialised before line 284, and `func_evals` is set to 0 by line 286, after the
evaluation of line 284. -/
def main_chained_start (data : List Columns) (rand3 rand4 : Nat) (prev : HubState) :
    HubState :=
  let b := main_bounding_box data
  let iter : Int := 0
  let x := random_number_generator b.max_x b.min_x 100 rand3
  let y := random_number_generator b.max_y b.min_y 100 rand4
  let r := cost_function x y data true prev.func_evals
  let value := r.1
  let func_evals : Int := 0
  { x := x, y := y, value := value, dx := prev.dx, dy := prev.dy, iter := iter,
    func_evals := func_evals }

/-- The state in which `main` enters the two-hub hill climb (lines 327-339). `prev` is the
state in which the chained scenario ended; `iter` is not reset, and `func_evals` is set to
0 by line 335, after the evaluation of line 333. -/
def main_2hubs_start (data : List Columns) (rand5 rand6 rand7 rand8 : Nat)
    (prev : HubState) : TwoHubState :=
  let b := main_bounding_box data
  let hub1_x := random_number_generator b.max_x b.min_x 100 rand5
  let hub1_y := random_number_generator b.max_y b.min_y 100 rand6
  let hub2_x := random_number_generator (b.max_x + 10) (b.min_x - 10) 100 rand7
  let hub2_y := random_number_generator (b.max_y + 0.5) (b.min_y - 0.5) 100 rand8
  let r := cost_function_2hubs hub1_x hub1_y hub2_x hub2_y data prev.func_evals
  let value := r.1
  let func_evals : Int := 0
  { hub1_x := hub1_x, hub1_y := hub1_y, hub2_x := hub2_x, hub2_y := hub2_y, value := value,
    dx := prev.dx, dy := prev.dy, iter := prev.iter, func_evals := func_evals }

/-- The three scenarios of `main` in sequence, each loop with the given fuel. The result
holds the states in which the three loops end; their `func_evals` fields are the counts
printed by lines 272, 320 and 375. -/
def main_scenarios (data : List Columns) (rand1 rand2 rand3 rand4 rand5 rand6 rand7 rand8 : Nat)
    (dx dy : Int) (fuel : Nat) : Option (HubState × HubState × TwoHubState) :=
  match hill_loop data false fuel (main_round_trip_start data rand1 rand2 dx dy) with
  | none => none
  | some s1 =>
    match hill_loop data true fuel (main_chained_start data rand3 rand4 s1) with
    | none => none
    | some s2 =>
      match hill_loop_2hubs data fuel
          (main_2hubs_start data rand5 rand6 rand7 rand8 s2) with
      | none => none
      | some s3 => some (s1, s2, s3)

/-! ## One call of a cost function on the program state -/

/-- The record of one evaluation of a division `dividend / divisor` on doubles. -/
structure Division where
  dividend : ℝ
  divisor : ℝ

/-- The evaluation of the C++ expression `1 / divisor` on doubles: its value, and the log
of the divisions performed so far with this evaluation appended. -/
def divide_one (divisor : ℝ) (log : List Division) : EReal × List Division :=
  (recip divisor, log ++ [{ dividend := 1, divisor := divisor }])

/-- The source's `cost_function` with the evaluations of the division of line 102 logged:
the result is the score, the new counter and the log. The statement `f = 1 / sum_dist;`
is on the only path through the function, with no test of `sum_dist` before it. -/
def cost_function_logged (x_cost y_cost : ℝ) (dataVector : List Columns) (improve : Bool)
    (func_evals : Int) (log : List Division) : EReal × Int × List Division :=
  let sum_dist :=
    if !improve then sum_dist_round_trip x_cost y_cost dataVector
    else sum_dist_chained x_cost y_cost dataVector
  let r := divide_one sum_dist log
  let f := r.1
  (f, func_evals + 1, r.2)

/-! ## Neighbour scores -/

/-- The score of the neighbour of the hub of `s` at offset `p = (i, j)`, as a single-hub
round evaluates it (lines 249 and 300). -/
def neighbour_score (data : List Columns) (improve : Bool) (s : HubState) (p : Int × Int) :
    EReal :=
  (cost_function (s.x + step * p.1) (s.y + step * p.2) data improve 0).1

/-! ## Specification-side quantities -/

/-- The sum, for `k = 1 .. n-1`, of `distance (p_k, p_(k+1))` along a place list, as the
specification of the chained cost writes it. -/
def chain_length : List Columns → ℝ
  | a :: b :: rest =>
    calc_distance a.latitude a.longitude b.latitude b.longitude + chain_length (b :: rest)
  | _ => 0

/-! ## Concrete inputs -/

/-- A place at latitude 0, longitude 0. -/
def place_equator_0 : Columns :=
  { place := "A", type := "town", population := 1, latitude := 0, longitude := 0 }

/-- A place at latitude 0, longitude 1. -/
def place_equator_1 : Columns :=
  { place := "B", type := "town", population := 1, latitude := 0, longitude := 1 }

/-- A place at latitude 0, longitude 0.6. -/
def place_equator_06 : Columns :=
  { place := "C", type := "town", population := 1, latitude := 0, longitude := 0.6 }

/-- A data set of one place, at latitude 0 and longitude 0.6. -/
def data_one_place : List Columns := [place_equator_06]

/-- The round-trip score of the hub `(x, y)` on `data_one_place`, as `cost_function`
returns it. -/
def score_at (x y : ℝ) : EReal := (cost_function x y data_one_place false 0).1

/-- The state in which `main` enters the round-trip hill climb on `data_one_place` when
the two calls of `rand ()` return 0 and 99; `dx` and `dy` have arbitrary content. -/
def start_state (dx dy : Int) : HubState := main_round_trip_start data_one_place 0 99 dx dy

/-- The state after the first round of the round-trip hill climb from `start_state`. -/
def middle_state : HubState :=
  { x := 0
    y := 0.604
    value := (cost_function 0 0.604 data_one_place false 0).1
    dx := 0
    dy := 1
    iter := 1
    func_evals := 9 }

/-- The state with which the round-trip hill climb from `start_state` leaves the loop. -/
def final_state : HubState :=
  { x := 0
    y := 0.614
    value := (cost_function 0 0.604 data_one_place false 0).1
    dx := 0
    dy := 1
    iter := 2
    func_evals := 17 }

/-- The offsets `(i, j)` at which a round evaluates the cost function, in loop order. -/
def neighbour_offsets : List (Int × Int) :=
  [(-1, -1), (-1, 0), (-1, 1), (0, -1), (0, 1), (1, -1), (1, 0), (1, 1)]

/-- A state of the two-hub hill climb on an empty data set, both hubs at `(0, 0)`, with
`value` as line 333 computes it. -/
def two_hub_start : TwoHubState :=
  { hub1_x := 0
    hub1_y := 0
    hub2_x := 0
    hub2_y := 0
    value := (cost_function_2hubs 0 0 0 0 [] 0).1
    dx := 0
    dy := 0
    iter := 0
    func_evals := 0 }


/-- A place at latitude 51.5, longitude -0.1. -/
def place_london : Columns :=
  { place := "London", type := "city", population := 7556900, latitude := 51.5,
    longitude := -0.1 }

/-- A data set of one place, `place_london`. -/
def data_london : List Columns := [place_london]

/-- The state in which `main` enters the chained hill climb on `data_one_place` after the
round-trip scenario ended in `final_state`, when the two calls of `rand ()` return 0 and
99. -/
def chained_start_state : HubState := main_chained_start data_one_place 0 99 final_state

/-- The state after the first round of the chained hill climb from
`chained_start_state`. -/
def chained_middle_state : HubState :=
  { x := 0
    y := 0.604
    value := (cost_function 0 0.604 data_one_place true 0).1
    dx := 0
    dy := 1
    iter := 1
    func_evals := 8 }

/-- The state with which the chained hill climb from `chained_start_state` leaves the
loop. -/
def chained_final_state : HubState :=
  { x := 0
    y := 0.614
    value := (cost_function 0 0.604 data_one_place true 0).1
    dx := 0
    dy := 1
    iter := 2
    func_evals := 16 }

/-- A state of a single-hub hill climb on an empty data set, hub at `(0, 0)`, with `value`
as the cost function computes it there. -/
def empty_data_state : HubState :=
  { x := 0
    y := 0
    value := (cost_function 0 0 [] false 0).1
    dx := 0
    dy := 0
    iter := 0
    func_evals := 1 }


theorem foldl_add_eq_sum (g : Columns → ℝ) (l : List Columns) (s : ℝ) :
    l.foldl (fun acc row => acc + g row) s = s + (l.map g).sum := by
  induction l generalizing s with
  | nil => simp
  | cons a l ih => simp [ih, add_assoc]

theorem sum_dist_round_trip_eq (x y : ℝ) (places : List Columns) :
    sum_dist_round_trip x y places
      = (places.map (fun p => calc_distance p.latitude p.longitude x y)).sum := by
  unfold sum_dist_round_trip
  rw [foldl_add_eq_sum (fun p => calc_distance p.latitude p.longitude x y)]
  simp

/-- C1. With `improve = false`, `cost_function` returns `1 / S`, where `S` is the sum over
all places of `calc_distance (place.latitude, place.longitude, x, y)`. -/
theorem cost_function_round_trip (x y : ℝ) (places : List Columns) (func_evals : Int) :
    (cost_function x y places false func_evals).1
      = recip ((places.map (fun p => calc_distance p.latitude p.longitude x y)).sum) := by
  simp [cost_function, sum_dist_round_trip_eq]

theorem foldl_2hubs_eq (d1 d2 : Columns → ℝ) (l : List Columns) (s : ℝ) :
    l.foldl (fun acc row => if d1 row < d2 row then acc + d1 row else acc + d2 row) s
      = s + (l.map (fun row => min (d1 row) (d2 row))).sum := by
  induction l generalizing s with
  | nil => simp
  | cons a l ih =>
    simp only [List.foldl_cons, List.map_cons, List.sum_cons, ih]
    by_cases h : d1 a < d2 a
    · simp [h, min_eq_left h.le, add_assoc]
    · simp [h, min_eq_right (not_lt.mp h), add_assoc]

theorem sum_dist_2hubs_eq (h1x h1y h2x h2y : ℝ) (places : List Columns) :
    sum_dist_2hubs h1x h1y h2x h2y places
      = (places.map (fun p => min (calc_distance p.latitude p.longitude h1x h1y)
          (calc_distance p.latitude p.longitude h2x h2y))).sum := by
  unfold sum_dist_2hubs
  rw [foldl_2hubs_eq (fun p => calc_distance p.latitude p.longitude h1x h1y)
    (fun p => calc_distance p.latitude p.longitude h2x h2y)]
  simp

theorem foldl_chained_step (l : List Columns) (s x1 y1 : ℝ) :
    (l.foldl chained_step (s, x1, y1)).1
      = s + (match l with
        | [] => 0
        | p :: ps => calc_distance x1 y1 p.latitude p.longitude + chain_length (p :: ps)) := by
  induction l generalizing s x1 y1 with
  | nil => simp
  | cons p ps ih =>
    simp only [List.foldl_cons, chained_step]
    rw [ih]
    cases ps with
    | nil => simp [chain_length]
    | cons q qs => simp [chain_length, add_assoc]

theorem sum_dist_chained_cons (hx hy : ℝ) (p : Columns) (ps : List Columns) :
    sum_dist_chained hx hy (p :: ps)
      = calc_distance hx hy p.latitude p.longitude + chain_length (p :: ps) := by
  unfold sum_dist_chained
  rw [foldl_chained_step]
  simp

/-- C3. With `improve = true` and a non-empty place list `p1 .. pn`, `cost_function`
returns `1 / (distance (H, p1) + sum for k = 1 .. n-1 of distance (pk, pk+1))`, the places
taken in list order; for two places `A`, `B` the total is `distance (H, A) + distance (A, B)`;
and two hubs at the same distance from the first place get the same score. -/
theorem cost_function_chained (hx hy : ℝ) (p : Columns) (ps : List Columns)
    (func_evals : Int) :
    (cost_function hx hy (p :: ps) true func_evals).1
        = recip (calc_distance hx hy p.latitude p.longitude + chain_length (p :: ps))
      ∧ (∀ a b : Columns, sum_dist_chained hx hy [a, b]
          = calc_distance hx hy a.latitude a.longitude
            + calc_distance a.latitude a.longitude b.latitude b.longitude)
      ∧ ∀ hx2 hy2 : ℝ,
          calc_distance hx2 hy2 p.latitude p.longitude
              = calc_distance hx hy p.latitude p.longitude →
          (cost_function hx2 hy2 (p :: ps) true func_evals).1
            = (cost_function hx hy (p :: ps) true func_evals).1 := by
  refine ⟨by simp [cost_function, sum_dist_chained_cons], ?_, ?_⟩
  · intro a b
    simp [sum_dist_chained_cons, chain_length]
  · intro hx2 hy2 h
    simp [cost_function, sum_dist_chained_cons, h]

/-- Witness for C3: the hubs `(0, -1)` and `(0, 1)` are at the same distance from the first
place `(0, 0)` and get the same chained score. -/
theorem cost_function_chained_witness :
    calc_distance 0 (-1) place_equator_0.latitude place_equator_0.longitude
        = calc_distance 0 1 place_equator_0.latitude place_equator_0.longitude
      ∧ (cost_function 0 (-1) [place_equator_0, place_equator_1] true 0).1
        = (cost_function 0 1 [place_equator_0, place_equator_1] true 0).1 := by
  have h : calc_distance 0 (-1) place_equator_0.latitude place_equator_0.longitude
      = calc_distance 0 1 place_equator_0.latitude place_equator_0.longitude := by
    simp [calc_distance, haversine_a, place_equator_0, neg_div]
  exact ⟨h, (cost_function_chained 0 1 place_equator_0 [place_equator_1] 0).2.2 0 (-1) h⟩

/-! ## The hill climb never lowers the score -/

theorem foldl_maxValue_le {α : Type} (f : Scan → α → Scan)
    (hf : ∀ acc i, acc.maxValue ≤ (f acc i).maxValue) (l : List α) (acc : Scan) :
    acc.maxValue ≤ (l.foldl f acc).maxValue := by
  induction l generalizing acc with
  | nil => simp
  | cons a l ih => exact le_trans (hf acc a) (ih (f acc a))

theorem scan_step_maxValue_le (x y : ℝ) (data : List Columns) (improve : Bool) (acc : Scan)
    (i j : Int) : acc.maxValue ≤ (scan_step x y data improve acc i j).maxValue := by
  unfold scan_step
  by_cases h0 : i = 0 ∧ j = 0
  · simp [h0]
  · simp only [h0, if_false]
    split
    · assumption
    · exact le_refl _

theorem scan_step_2hubs_maxValue_le (a b c d : ℝ) (data : List Columns) (acc : Scan)
    (i j : Int) : acc.maxValue ≤ (scan_step_2hubs a b c d data acc i j).maxValue := by
  unfold scan_step_2hubs
  by_cases h0 : i = 0 ∧ j = 0
  · simp [h0]
  · simp only [h0, if_false]
    split
    · assumption
    · exact le_refl _

theorem neighbour_scan_maxValue_le (x y : ℝ) (data : List Columns) (improve : Bool)
    (acc : Scan) : acc.maxValue ≤ (neighbour_scan x y data improve acc).maxValue := by
  unfold neighbour_scan
  apply foldl_maxValue_le
  intro acc1 i
  apply foldl_maxValue_le
  intro acc2 j
  exact scan_step_maxValue_le x y data improve acc2 i j

theorem neighbour_scan_2hubs_maxValue_le (a b c d : ℝ) (data : List Columns) (acc : Scan) :
    acc.maxValue ≤ (neighbour_scan_2hubs a b c d data acc).maxValue := by
  unfold neighbour_scan_2hubs
  apply foldl_maxValue_le
  intro acc1 i
  apply foldl_maxValue_le
  intro acc2 j
  exact scan_step_2hubs_maxValue_le a b c d data acc2 i j

theorem hill_round_value_le (data : List Columns) (improve : Bool) (s : HubState) :
    s.value ≤ (hill_round data improve s).value := by
  exact neighbour_scan_maxValue_le s.x s.y data improve
    { maxValue := s.value, dx := s.dx, dy := s.dy, func_evals := s.func_evals }

theorem hill_round_2hubs_value_le (data : List Columns) (s : TwoHubState) :
    s.value ≤ (hill_round_2hubs data s).value := by
  exact neighbour_scan_2hubs_maxValue_le s.hub1_x s.hub1_y s.hub2_x s.hub2_y data
    { maxValue := s.value, dx := s.dx, dy := s.dy, func_evals := s.func_evals }

theorem hill_round_iterate_value_le (data : List Columns) (improve : Bool) (k : Nat)
    (s : HubState) : s.value ≤ ((hill_round data improve)^[k] s).value := by
  induction k generalizing s with
  | zero => simp
  | succ k ih =>
    rw [Function.iterate_succ_apply]
    exact le_trans (hill_round_value_le data improve s) (ih _)

theorem hill_round_2hubs_iterate_value_le (data : List Columns) (k : Nat) (s : TwoHubState) :
    s.value ≤ ((hill_round_2hubs data)^[k] s).value := by
  induction k generalizing s with
  | zero => simp
  | succ k ih =>
    rw [Function.iterate_succ_apply]
    exact le_trans (hill_round_2hubs_value_le data s) (ih _)

theorem hill_loop_value_le (data : List Columns) (improve : Bool) (fuel : Nat)
    (s t : HubState) (h : hill_loop data improve fuel s = some t) : s.value ≤ t.value := by
  induction fuel generalizing s with
  | zero => simp [hill_loop] at h
  | succ fuel ih =>
    simp only [hill_loop] at h
    split at h
    · exact le_trans (hill_round_value_le data improve s) (ih _ h)
    · cases h
      exact hill_round_value_le data improve s

theorem hill_loop_2hubs_value_le (data : List Columns) (fuel : Nat)
    (s t : TwoHubState) (h : hill_loop_2hubs data fuel s = some t) : s.value ≤ t.value := by
  induction fuel generalizing s with
  | zero => simp [hill_loop_2hubs] at h
  | succ fuel ih =>
    simp only [hill_loop_2hubs] at h
    split at h
    · exact le_trans (hill_round_2hubs_value_le data s) (ih _ h)
    · cases h
      exact hill_round_2hubs_value_le data s

/-- C4. In each of the three hill-climb loops (round trip and chained: `hill_round` with
`improve = false` and `true`; two hubs: `hill_round_2hubs`) the value held after a round
is at least the value held before it; hence the value after any number of rounds, and the
value with which the loop exits, is at least the initial value. -/
theorem hill_climb_score_never_decreases (data : List Columns) :
    (∀ (improve : Bool) (s : HubState), s.value ≤ (hill_round data improve s).value)
      ∧ (∀ s : TwoHubState, s.value ≤ (hill_round_2hubs data s).value)
      ∧ (∀ (improve : Bool) (k : Nat) (s : HubState),
          s.value ≤ ((hill_round data improve)^[k] s).value)
      ∧ (∀ (k : Nat) (s : TwoHubState), s.value ≤ ((hill_round_2hubs data)^[k] s).value)
      ∧ (∀ (improve : Bool) (fuel : Nat) (s t : HubState),
          hill_loop data improve fuel s = some t → s.value ≤ t.value)
      ∧ (∀ (fuel : Nat) (s t : TwoHubState),
          hill_loop_2hubs data fuel s = some t → s.value ≤ t.value) :=
  ⟨hill_round_value_le data, hill_round_2hubs_value_le data,
    hill_round_iterate_value_le data, hill_round_2hubs_iterate_value_le data,
    hill_loop_value_le data, hill_loop_2hubs_value_le data⟩

/-! ## Geometry of `calc_distance` -/

theorem sin_sq_half_angle (t : ℝ) : Real.sin (t / 2) ^ 2 = (1 - Real.cos t) / 2 := by
  have h := Real.cos_two_mul (t / 2)
  have e : 2 * (t / 2) = t := by ring
  rw [e] at h
  have h2 := Real.sin_sq_add_cos_sq (t / 2)
  linarith

/-- The inner product of the unit vectors of two points given in degrees, written with the
source's constant `PI`. -/
theorem haversine_a_eq_dot (lat1 long1 lat2 long2 : ℝ) :
    1 - 2 * haversine_a lat1 long1 lat2 long2
      = Real.cos (lat1 * PI / 180) * Real.cos (long1 * PI / 180)
          * (Real.cos (lat2 * PI / 180) * Real.cos (long2 * PI / 180))
        + Real.cos (lat1 * PI / 180) * Real.sin (long1 * PI / 180)
          * (Real.cos (lat2 * PI / 180) * Real.sin (long2 * PI / 180))
        + Real.sin (lat1 * PI / 180) * Real.sin (lat2 * PI / 180) := by
  unfold haversine_a
  simp only [sin_sq_half_angle]
  have e1 : (lat2 - lat1) * PI / 180 = lat2 * PI / 180 - lat1 * PI / 180 := by ring
  have e2 : (long2 - long1) * PI / 180 = long2 * PI / 180 - long1 * PI / 180 := by ring
  rw [e1, e2, Real.cos_sub, Real.cos_sub]
  ring

theorem unit_vector_norm (φ l : ℝ) :
    (Real.cos φ * Real.cos l) ^ 2 + (Real.cos φ * Real.sin l) ^ 2 + Real.sin φ ^ 2 = 1 := by
  have h1 := Real.sin_sq_add_cos_sq φ
  have h2 := Real.sin_sq_add_cos_sq l
  have : (Real.cos φ * Real.cos l) ^ 2 + (Real.cos φ * Real.sin l) ^ 2 + Real.sin φ ^ 2
      = Real.cos φ ^ 2 * (Real.sin l ^ 2 + Real.cos l ^ 2) + Real.sin φ ^ 2 := by ring
  rw [this, h2]
  linarith

theorem haversine_a_nonneg (lat1 long1 lat2 long2 : ℝ) :
    0 ≤ haversine_a lat1 long1 lat2 long2 := by
  have h := haversine_a_eq_dot lat1 long1 lat2 long2
  have hu := unit_vector_norm (lat1 * PI / 180) (long1 * PI / 180)
  have hv := unit_vector_norm (lat2 * PI / 180) (long2 * PI / 180)
  nlinarith [sq_nonneg (Real.cos (lat1 * PI / 180) * Real.cos (long1 * PI / 180)
      - Real.cos (lat2 * PI / 180) * Real.cos (long2 * PI / 180)),
    sq_nonneg (Real.cos (lat1 * PI / 180) * Real.sin (long1 * PI / 180)
      - Real.cos (lat2 * PI / 180) * Real.sin (long2 * PI / 180)),
    sq_nonneg (Real.sin (lat1 * PI / 180) - Real.sin (lat2 * PI / 180))]

theorem haversine_a_le_one (lat1 long1 lat2 long2 : ℝ) :
    haversine_a lat1 long1 lat2 long2 ≤ 1 := by
  have h := haversine_a_eq_dot lat1 long1 lat2 long2
  have hu := unit_vector_norm (lat1 * PI / 180) (long1 * PI / 180)
  have hv := unit_vector_norm (lat2 * PI / 180) (long2 * PI / 180)
  nlinarith [sq_nonneg (Real.cos (lat1 * PI / 180) * Real.cos (long1 * PI / 180)
      + Real.cos (lat2 * PI / 180) * Real.cos (long2 * PI / 180)),
    sq_nonneg (Real.cos (lat1 * PI / 180) * Real.sin (long1 * PI / 180)
      + Real.cos (lat2 * PI / 180) * Real.sin (long2 * PI / 180)),
    sq_nonneg (Real.sin (lat1 * PI / 180) + Real.sin (lat2 * PI / 180))]

/-- On the range of the haversine term, the source's `atan2 (sqrt a, sqrt (1 - a))` is the
arcsine of `sqrt a`. -/
theorem atan2_sqrt_eq_arcsin (a : ℝ) (h0 : 0 ≤ a) (h1 : a ≤ 1) :
    atan2 (Real.sqrt a) (Real.sqrt (1 - a)) = Real.arcsin (Real.sqrt a) := by
  unfold atan2
  rcases eq_or_lt_of_le h1 with h | h
  · subst h
    simp
  · have hpos : 0 < Real.sqrt (1 - a) := Real.sqrt_pos.mpr (by linarith)
    rw [if_pos hpos]
    have hx : Real.sqrt a ∈ Set.Ioo (-(1 : ℝ)) 1 := by
      constructor
      · have := Real.sqrt_nonneg a
        linarith
      · rw [Real.sqrt_lt' (by norm_num)]
        simpa using h
    rw [Real.arcsin_eq_arctan hx, Real.sq_sqrt h0]

theorem two_arcsin_sqrt (a : ℝ) (h0 : 0 ≤ a) (h1 : a ≤ 1) :
    2 * Real.arcsin (Real.sqrt a) = Real.arccos (1 - 2 * a) := by
  have hs0 : 0 ≤ Real.sqrt a := Real.sqrt_nonneg a
  have hs1 : Real.sqrt a ≤ 1 := Real.sqrt_le_one.mpr h1
  have ht0 : 0 ≤ Real.arcsin (Real.sqrt a) := Real.arcsin_nonneg.mpr hs0
  have ht1 : Real.arcsin (Real.sqrt a) ≤ Real.pi / 2 := Real.arcsin_le_pi_div_two _
  have hc : Real.cos (2 * Real.arcsin (Real.sqrt a)) = 1 - 2 * a := by
    rw [Real.cos_two_mul, Real.cos_sq', Real.sin_arcsin (by linarith) hs1, Real.sq_sqrt h0]
    ring
  rw [← hc, Real.arccos_cos (by linarith) (by linarith)]

/-- The source's `calc_distance` is `R` times the angle between the two unit vectors. -/
theorem calc_distance_eq_arccos (lat1 long1 lat2 long2 : ℝ) :
    calc_distance lat1 long1 lat2 long2
      = R * Real.arccos (1 - 2 * haversine_a lat1 long1 lat2 long2) := by
  unfold calc_distance
  simp only
  rw [atan2_sqrt_eq_arcsin _ (haversine_a_nonneg _ _ _ _) (haversine_a_le_one _ _ _ _),
    two_arcsin_sqrt _ (haversine_a_nonneg _ _ _ _) (haversine_a_le_one _ _ _ _)]

theorem R_pos : 0 < R := by
  unfold R
  norm_num

theorem calc_distance_nonneg (lat1 long1 lat2 long2 : ℝ) :
    0 ≤ calc_distance lat1 long1 lat2 long2 := by
  rw [calc_distance_eq_arccos]
  exact mul_nonneg R_pos.le (Real.arccos_nonneg _)

/-- C7. The distance from a point to itself is `0`. -/
theorem calc_distance_self (lat long : ℝ) : calc_distance lat long lat long = 0 := by
  simp [calc_distance, haversine_a, atan2]

theorem haversine_a_symm (lat1 long1 lat2 long2 : ℝ) :
    haversine_a lat1 long1 lat2 long2 = haversine_a lat2 long2 lat1 long1 := by
  unfold haversine_a
  have e1 : (lat1 - lat2) * PI / 180 / 2 = -((lat2 - lat1) * PI / 180 / 2) := by ring
  have e2 : (long1 - long2) * PI / 180 / 2 = -((long2 - long1) * PI / 180 / 2) := by ring
  simp only [e1, e2, Real.sin_neg, neg_sq]
  ring

/-- C8. `calc_distance` is symmetric in its two points. -/
theorem calc_distance_symm (lat1 long1 lat2 long2 : ℝ) :
    calc_distance lat1 long1 lat2 long2 = calc_distance lat2 long2 lat1 long1 := by
  unfold calc_distance
  rw [haversine_a_symm]

/-- Exact arithmetic only: for all real inputs the haversine term lies in `[0, 1]` and the
distance is nonnegative. The double computation of line 52 can round the term above 1, so
this does not carry over to the source's doubles. -/
theorem haversine_a_range_exact (lat1 long1 lat2 long2 : ℝ) :
    0 ≤ haversine_a lat1 long1 lat2 long2
      ∧ haversine_a lat1 long1 lat2 long2 ≤ 1
      ∧ 0 ≤ calc_distance lat1 long1 lat2 long2 :=
  ⟨haversine_a_nonneg _ _ _ _, haversine_a_le_one _ _ _ _, calc_distance_nonneg _ _ _ _⟩

/-! ### The triangle inequality -/

theorem gram_inequality (u1 u2 u3 v1 v2 v3 w1 w2 w3 : ℝ)
    (hu : u1 ^ 2 + u2 ^ 2 + u3 ^ 2 = 1) (hv : v1 ^ 2 + v2 ^ 2 + v3 ^ 2 = 1)
    (hw : w1 ^ 2 + w2 ^ 2 + w3 ^ 2 = 1) :
    ((u1 * v1 + u2 * v2 + u3 * v3) * (v1 * w1 + v2 * w2 + v3 * w3)
        - (u1 * w1 + u2 * w2 + u3 * w3)) ^ 2
      ≤ (1 - (u1 * v1 + u2 * v2 + u3 * v3) ^ 2) * (1 - (v1 * w1 + v2 * w2 + v3 * w3) ^ 2) := by
  have gram : (u1 ^ 2 + u2 ^ 2 + u3 ^ 2) * (v1 ^ 2 + v2 ^ 2 + v3 ^ 2) * (w1 ^ 2 + w2 ^ 2 + w3 ^ 2)
      - (u1 ^ 2 + u2 ^ 2 + u3 ^ 2) * (v1 * w1 + v2 * w2 + v3 * w3) ^ 2
      - (w1 ^ 2 + w2 ^ 2 + w3 ^ 2) * (u1 * v1 + u2 * v2 + u3 * v3) ^ 2
      - (v1 ^ 2 + v2 ^ 2 + v3 ^ 2) * (u1 * w1 + u2 * w2 + u3 * w3) ^ 2
      + 2 * (u1 * v1 + u2 * v2 + u3 * v3) * (v1 * w1 + v2 * w2 + v3 * w3)
          * (u1 * w1 + u2 * w2 + u3 * w3)
      = (u1 * (v2 * w3 - v3 * w2) - u2 * (v1 * w3 - v3 * w1) + u3 * (v1 * w2 - v2 * w1)) ^ 2 := by
    ring
  rw [hu, hv, hw] at gram
  have hD := sq_nonneg
    (u1 * (v2 * w3 - v3 * w2) - u2 * (v1 * w3 - v3 * w1) + u3 * (v1 * w2 - v2 * w1))
  rw [← gram] at hD
  generalize u1 * v1 + u2 * v2 + u3 * v3 = p at hD ⊢
  generalize v1 * w1 + v2 * w2 + v3 * w3 = q at hD ⊢
  generalize u1 * w1 + u2 * w2 + u3 * w3 = r at hD ⊢
  nlinarith [hD]

theorem abs_dot_le_one (u1 u2 u3 v1 v2 v3 : ℝ)
    (hu : u1 ^ 2 + u2 ^ 2 + u3 ^ 2 = 1) (hv : v1 ^ 2 + v2 ^ 2 + v3 ^ 2 = 1) :
    -1 ≤ u1 * v1 + u2 * v2 + u3 * v3 ∧ u1 * v1 + u2 * v2 + u3 * v3 ≤ 1 := by
  constructor
  · nlinarith [sq_nonneg (u1 + v1), sq_nonneg (u2 + v2), sq_nonneg (u3 + v3)]
  · nlinarith [sq_nonneg (u1 - v1), sq_nonneg (u2 - v2), sq_nonneg (u3 - v3)]

theorem arccos_antitone {a b : ℝ} (h : a ≤ b) : Real.arccos b ≤ Real.arccos a := by
  rw [Real.arccos_eq_pi_div_two_sub_arcsin, Real.arccos_eq_pi_div_two_sub_arcsin]
  have := Real.monotone_arcsin h
  linarith

/-- The angle between unit vectors obeys the triangle inequality, stated on the three
inner products `p`, `q`, `r`. -/
theorem arccos_triangle (p q r : ℝ) (hp : -1 ≤ p ∧ p ≤ 1) (hq : -1 ≤ q ∧ q ≤ 1)
    (h : (p * q - r) ^ 2 ≤ (1 - p ^ 2) * (1 - q ^ 2)) :
    Real.arccos r ≤ Real.arccos p + Real.arccos q := by
  by_cases hsum : Real.pi ≤ Real.arccos p + Real.arccos q
  · exact le_trans (Real.arccos_le_pi r) hsum
  · push_neg at hsum
    have h0 : 0 ≤ Real.arccos p + Real.arccos q :=
      add_nonneg (Real.arccos_nonneg p) (Real.arccos_nonneg q)
    have hcos : Real.cos (Real.arccos p + Real.arccos q)
        = p * q - Real.sqrt (1 - p ^ 2) * Real.sqrt (1 - q ^ 2) := by
      rw [Real.cos_add, Real.cos_arccos hp.1 hp.2, Real.cos_arccos hq.1 hq.2,
        Real.sin_arccos, Real.sin_arccos]
    have hsq : Real.sqrt (1 - p ^ 2) * Real.sqrt (1 - q ^ 2)
        = Real.sqrt ((1 - p ^ 2) * (1 - q ^ 2)) := by
      rw [Real.sqrt_mul (by nlinarith [hp.1, hp.2])]
    have hle : p * q - r ≤ Real.sqrt ((1 - p ^ 2) * (1 - q ^ 2)) :=
      Real.le_sqrt_of_sq_le h
    have hr : Real.cos (Real.arccos p + Real.arccos q) ≤ r := by
      rw [hcos, hsq]
      linarith
    calc Real.arccos r ≤ Real.arccos (Real.cos (Real.arccos p + Real.arccos q)) :=
          arccos_antitone hr
      _ = Real.arccos p + Real.arccos q := Real.arccos_cos h0 hsum.le

/-- Exact arithmetic only: the great-circle distance of the model satisfies the triangle
inequality. The double computation of the source can break it by rounding, so this does
not carry over to the source's doubles. -/
theorem calc_distance_triangle_exact (lat1 long1 lat2 long2 lat3 long3 : ℝ) :
    calc_distance lat1 long1 lat3 long3
      ≤ calc_distance lat1 long1 lat2 long2 + calc_distance lat2 long2 lat3 long3 := by
  simp only [calc_distance_eq_arccos, haversine_a_eq_dot]
  rw [← mul_add]
  apply mul_le_mul_of_nonneg_left _ R_pos.le
  have hu := unit_vector_norm (lat1 * PI / 180) (long1 * PI / 180)
  have hv := unit_vector_norm (lat2 * PI / 180) (long2 * PI / 180)
  have hw := unit_vector_norm (lat3 * PI / 180) (long3 * PI / 180)
  exact arccos_triangle _ _ _ (abs_dot_le_one _ _ _ _ _ _ hu hv)
    (abs_dot_le_one _ _ _ _ _ _ hv hw) (gram_inequality _ _ _ _ _ _ _ _ _ hu hv hw)

/-! ## A run of the round-trip hill climb on one place -/

theorem PI_pos : 0 < PI := by
  unfold PI
  norm_num

theorem PI_lt_four : PI < 4 := by
  unfold PI
  norm_num

theorem recip_lt_recip {a b : ℝ} (ha : 0 ≤ a) (hab : a < b) : recip b < recip a := by
  have hb : b ≠ 0 := (lt_of_le_of_lt ha hab).ne'
  unfold recip
  rw [if_neg hb]
  by_cases h : a = 0
  · rw [if_pos h]
    exact EReal.coe_lt_top _
  · rw [if_neg h]
    have hpos : 0 < a := lt_of_le_of_ne ha (Ne.symm h)
    exact EReal.coe_lt_coe_iff.mpr (one_div_lt_one_div_of_lt hpos hab)

theorem abs_deg_le {t : ℝ} (ht : t ^ 2 ≤ 1) : |t| * PI / 180 ≤ 1 := by
  have h1 : |t| ≤ 1 := by
    have := sq_le_one_iff_abs_le_one t
    exact this.mp ht
  have h2 := abs_nonneg t
  nlinarith [PI_pos, PI_lt_four]

theorem cos_deg_eq (t : ℝ) : Real.cos (t * PI / 180) = Real.cos (|t| * PI / 180) := by
  rw [← Real.cos_abs (t * PI / 180)]
  congr 1
  rw [abs_div, abs_mul, abs_of_pos PI_pos, abs_of_pos (by norm_num : (0 : ℝ) < 180)]

theorem cos_deg_pos {t : ℝ} (ht : t ^ 2 ≤ 1) : 0 < Real.cos (t * PI / 180) := by
  rw [cos_deg_eq]
  have h1 := abs_deg_le ht
  have h0 : 0 ≤ |t| * PI / 180 := by
    have := abs_nonneg t
    have := PI_pos
    positivity
  apply Real.cos_pos_of_mem_Ioo
  constructor <;> linarith [Real.pi_gt_three]

theorem cos_deg_le_cos_deg {s t : ℝ} (h : s ^ 2 ≤ t ^ 2) (ht : t ^ 2 ≤ 1) :
    Real.cos (t * PI / 180) ≤ Real.cos (s * PI / 180) := by
  rw [cos_deg_eq t, cos_deg_eq s]
  have hst : |s| ≤ |t| := sq_le_sq.mp h
  have h1 := abs_deg_le ht
  have h0 : 0 ≤ |s| * PI / 180 := by
    have := abs_nonneg s
    have := PI_pos
    positivity
  apply Real.cos_le_cos_of_nonneg_of_le_pi h0 (by linarith [Real.pi_gt_three])
  have := PI_pos
  apply div_le_div_of_nonneg_right _ (by norm_num)
  exact mul_le_mul_of_nonneg_right hst PI_pos.le

theorem cos_deg_lt_cos_deg {s t : ℝ} (h : s ^ 2 < t ^ 2) (ht : t ^ 2 ≤ 1) :
    Real.cos (t * PI / 180) < Real.cos (s * PI / 180) := by
  rw [cos_deg_eq t, cos_deg_eq s]
  have hst : |s| < |t| := sq_lt_sq.mp h
  have h1 := abs_deg_le ht
  have h0 : 0 ≤ |s| * PI / 180 := by
    have := abs_nonneg s
    have := PI_pos
    positivity
  apply Real.cos_lt_cos_of_nonneg_of_le_pi h0 (by linarith [Real.pi_gt_three])
  apply div_lt_div_of_pos_right _ (by norm_num)
  exact mul_lt_mul_of_pos_right hst PI_pos

theorem calc_distance_equator (p x y : ℝ) :
    calc_distance 0 p x y
      = R * Real.arccos (Real.cos (x * PI / 180) * Real.cos ((y - p) * PI / 180)) := by
  rw [calc_distance_eq_arccos]
  congr 2
  unfold haversine_a
  simp only [sin_sq_half_angle]
  simp
  ring

theorem score_at_eq (x y : ℝ) : score_at x y = recip (calc_distance 0 0.6 x y) := by
  simp [score_at, cost_function, sum_dist_round_trip, data_one_place, place_equator_06]

/-- On `data_one_place`, a hub whose two cosines (latitude, and longitude relative to the
place) have the smaller product scores strictly less. -/
theorem score_at_lt_of_cos_lt {x y u v : ℝ}
    (h : Real.cos (x * PI / 180) * Real.cos ((y - 0.6) * PI / 180)
      < Real.cos (u * PI / 180) * Real.cos ((v - 0.6) * PI / 180)) :
    score_at x y < score_at u v := by
  rw [score_at_eq, score_at_eq]
  apply recip_lt_recip (calc_distance_nonneg _ _ _ _)
  rw [calc_distance_equator, calc_distance_equator]
  apply mul_lt_mul_of_pos_left _ R_pos
  have b1 : ∀ s t : ℝ, Real.cos s * Real.cos t ∈ Set.Icc (-1 : ℝ) 1 := by
    intro s t
    have h1 := Real.neg_one_le_cos s
    have h2 := Real.cos_le_one s
    have h3 := Real.neg_one_le_cos t
    have h4 := Real.cos_le_one t
    constructor <;> nlinarith
  exact Real.strictAntiOn_arccos (b1 _ _) (b1 _ _) h

/-- On `data_one_place`, a hub that is no nearer to the place in latitude and in longitude,
and farther in one of them, scores strictly less (offsets within one degree). -/
theorem score_at_lt {x y u v : ℝ} (hx : u ^ 2 ≤ x ^ 2) (hy : (v - 0.6) ^ 2 ≤ (y - 0.6) ^ 2)
    (hxy : u ^ 2 + (v - 0.6) ^ 2 < x ^ 2 + (y - 0.6) ^ 2) (hx1 : x ^ 2 ≤ 1)
    (hy1 : (y - 0.6) ^ 2 ≤ 1) :
    score_at x y < score_at u v := by
  apply score_at_lt_of_cos_lt
  have cx := cos_deg_pos hx1
  have cy := cos_deg_pos hy1
  have lx := cos_deg_le_cos_deg hx hx1
  have ly := cos_deg_le_cos_deg hy hy1
  by_cases hs : u ^ 2 < x ^ 2
  · have := cos_deg_lt_cos_deg hs hx1
    nlinarith
  · have hs2 : (v - 0.6) ^ 2 < (y - 0.6) ^ 2 := by linarith [not_lt.mp hs]
    have := cos_deg_lt_cos_deg hs2 hy1
    nlinarith

theorem scan_step_keep (x y : ℝ) (data : List Columns) (improve : Bool) (acc : Scan)
    (i j : Int) (nx ny : ℝ) (hx : x + step * i = nx) (hy : y + step * j = ny)
    (h0 : ¬(i = 0 ∧ j = 0))
    (h : (cost_function nx ny data improve 0).1 < acc.maxValue) :
    scan_step x y data improve acc i j
      = { maxValue := acc.maxValue, dx := acc.dx, dy := acc.dy,
          func_evals := acc.func_evals + 1 } := by
  subst hx hy
  have h2 : ¬((cost_function (x + step * i) (y + step * j) data improve acc.func_evals).1
      ≥ acc.maxValue) := not_le.mpr h
  simp only [scan_step, if_neg h0, if_neg h2]
  rfl

theorem scan_step_take (x y : ℝ) (data : List Columns) (improve : Bool) (acc : Scan)
    (i j : Int) (nx ny : ℝ) (hx : x + step * i = nx) (hy : y + step * j = ny)
    (h0 : ¬(i = 0 ∧ j = 0))
    (h : acc.maxValue ≤ (cost_function nx ny data improve 0).1) :
    scan_step x y data improve acc i j
      = { maxValue := (cost_function nx ny data improve 0).1, dx := i, dy := j,
          func_evals := acc.func_evals + 1 } := by
  subst hx hy
  have h2 : (cost_function (x + step * i) (y + step * j) data improve acc.func_evals).1
      ≥ acc.maxValue := h
  simp only [scan_step, if_neg h0, if_pos h2]
  rfl

/-- A round in which every neighbour scores strictly less than the current value keeps
`value`, `dx` and `dy`, and still adds `step * dx` and `step * dy` to the hub
coordinates. -/
theorem hill_round_no_improvement (data : List Columns) (improve : Bool) (s : HubState)
    (h : ∀ i j : Int, (i = -1 ∨ i = 0 ∨ i = 1) → (j = -1 ∨ j = 0 ∨ j = 1) →
      ¬(i = 0 ∧ j = 0) →
      (cost_function (s.x + step * i) (s.y + step * j) data improve 0).1 < s.value) :
    hill_round data improve s
      = { x := s.x + step * s.dx
          y := s.y + step * s.dy
          value := s.value
          dx := s.dx
          dy := s.dy
          iter := s.iter + 1
          func_evals := s.func_evals + 8 } := by
  have e : neighbour_scan s.x s.y data improve
      { maxValue := s.value, dx := s.dx, dy := s.dy, func_evals := s.func_evals }
      = { maxValue := s.value, dx := s.dx, dy := s.dy, func_evals := s.func_evals + 8 } := by
    simp only [neighbour_scan, List.foldl]
    rw [scan_step_keep s.x s.y data improve _ (-1) (-1) _ _ rfl rfl (by decide)
      (h (-1) (-1) (by decide) (by decide) (by decide))]
    rw [scan_step_keep s.x s.y data improve _ (-1) 0 _ _ rfl rfl (by decide)
      (h (-1) 0 (by decide) (by decide) (by decide))]
    rw [scan_step_keep s.x s.y data improve _ (-1) 1 _ _ rfl rfl (by decide)
      (h (-1) 1 (by decide) (by decide) (by decide))]
    rw [scan_step_keep s.x s.y data improve _ 0 (-1) _ _ rfl rfl (by decide)
      (h 0 (-1) (by decide) (by decide) (by decide))]
    have skip : ∀ acc : Scan, scan_step s.x s.y data improve acc 0 0 = acc := by
      intro acc
      simp [scan_step]
    rw [skip]
    rw [scan_step_keep s.x s.y data improve _ 0 1 _ _ rfl rfl (by decide)
      (h 0 1 (by decide) (by decide) (by decide))]
    rw [scan_step_keep s.x s.y data improve _ 1 (-1) _ _ rfl rfl (by decide)
      (h 1 (-1) (by decide) (by decide) (by decide))]
    rw [scan_step_keep s.x s.y data improve _ 1 0 _ _ rfl rfl (by decide)
      (h 1 0 (by decide) (by decide) (by decide))]
    rw [scan_step_keep s.x s.y data improve _ 1 1 _ _ rfl rfl (by decide)
      (h 1 1 (by decide) (by decide) (by decide))]
    simp only [Scan.mk.injEq, true_and]
    ring
  simp only [hill_round, e]

theorem start_state_eq (dx dy : Int) :
    start_state dx dy
      = { x := 0, y := 0.594, value := score_at 0 0.594, dx := dx, dy := dy, iter := 0,
          func_evals := 1 } := by
  have hy : random_number_generator
      (min_max_finder 0 0 0 0 data_one_place) 0 100 99 = 0.594 := by
    norm_num [random_number_generator, min_max_finder, min_max_step, data_one_place,
      place_equator_06]
  have hx : random_number_generator 0 0 100 0 = 0 := by
    norm_num [random_number_generator]
  simp only [start_state, main_round_trip_start, hx, hy]
  rfl

theorem score_at_diagonal_lt : score_at (-0.01) 0.604 < score_at 0 0.594 := by
  apply score_at_lt_of_cos_lt
  have h1 : Real.cos (-0.01 * PI / 180) < Real.cos ((0.594 - 0.6) * PI / 180) :=
    cos_deg_lt_cos_deg (by norm_num) (by norm_num)
  have h2 : 0 < Real.cos (-0.01 * PI / 180) := cos_deg_pos (by norm_num)
  have h3 : Real.cos ((0.604 - 0.6) * PI / 180) ≤ 1 := Real.cos_le_one _
  simp only [zero_mul, zero_div, Real.cos_zero, one_mul]
  nlinarith

/-- The first round from `start_state`: the hub moves from `(0, 0.594)` to `(0, 0.604)`. -/
theorem first_round (dx dy : Int) :
    hill_round data_one_place false (start_state dx dy) = middle_state := by
  have k1 : score_at (-0.01) 0.584 < score_at 0 0.594 :=
    score_at_lt (by norm_num) (by norm_num) (by norm_num) (by norm_num) (by norm_num)
  have k2 : score_at (-0.01) 0.594 < score_at 0 0.594 :=
    score_at_lt (by norm_num) (by norm_num) (by norm_num) (by norm_num) (by norm_num)
  have k3 : score_at (-0.01) 0.604 < score_at 0 0.594 := score_at_diagonal_lt
  have k4 : score_at 0 0.584 < score_at 0 0.594 :=
    score_at_lt (by norm_num) (by norm_num) (by norm_num) (by norm_num) (by norm_num)
  have k5 : score_at 0 0.594 ≤ score_at 0 0.604 :=
    (score_at_lt (by norm_num) (by norm_num) (by norm_num) (by norm_num) (by norm_num)).le
  have k6 : score_at 0.01 0.584 < score_at 0 0.604 :=
    score_at_lt (by norm_num) (by norm_num) (by norm_num) (by norm_num) (by norm_num)
  have k7 : score_at 0.01 0.594 < score_at 0 0.604 :=
    score_at_lt (by norm_num) (by norm_num) (by norm_num) (by norm_num) (by norm_num)
  have k8 : score_at 0.01 0.604 < score_at 0 0.604 :=
    score_at_lt (by norm_num) (by norm_num) (by norm_num) (by norm_num) (by norm_num)
  have e1 : scan_step 0 0.594 data_one_place false
      { maxValue := score_at 0 0.594, dx := dx, dy := dy, func_evals := 1 } (-1) (-1)
      = { maxValue := score_at 0 0.594, dx := dx, dy := dy, func_evals := 2 } :=
    scan_step_keep 0 0.594 data_one_place false _ _ _ (-0.01) 0.584
      (by norm_num [step]) (by norm_num [step]) (by decide) k1
  have e2 : scan_step 0 0.594 data_one_place false
      { maxValue := score_at 0 0.594, dx := dx, dy := dy, func_evals := 2 } (-1) 0
      = { maxValue := score_at 0 0.594, dx := dx, dy := dy, func_evals := 3 } :=
    scan_step_keep 0 0.594 data_one_place false _ _ _ (-0.01) 0.594
      (by norm_num [step]) (by norm_num [step]) (by decide) k2
  have e3 : scan_step 0 0.594 data_one_place false
      { maxValue := score_at 0 0.594, dx := dx, dy := dy, func_evals := 3 } (-1) 1
      = { maxValue := score_at 0 0.594, dx := dx, dy := dy, func_evals := 4 } :=
    scan_step_keep 0 0.594 data_one_place false _ _ _ (-0.01) 0.604
      (by norm_num [step]) (by norm_num [step]) (by decide) k3
  have e4 : scan_step 0 0.594 data_one_place false
      { maxValue := score_at 0 0.594, dx := dx, dy := dy, func_evals := 4 } 0 (-1)
      = { maxValue := score_at 0 0.594, dx := dx, dy := dy, func_evals := 5 } :=
    scan_step_keep 0 0.594 data_one_place false _ _ _ 0 0.584
      (by norm_num [step]) (by norm_num [step]) (by decide) k4
  have e5 : ∀ acc : Scan, scan_step 0 0.594 data_one_place false acc 0 0 = acc := by
    intro acc
    simp [scan_step]
  have e6 : scan_step 0 0.594 data_one_place false
      { maxValue := score_at 0 0.594, dx := dx, dy := dy, func_evals := 5 } 0 1
      = { maxValue := score_at 0 0.604, dx := 0, dy := 1, func_evals := 6 } :=
    scan_step_take 0 0.594 data_one_place false _ _ _ 0 0.604
      (by norm_num [step]) (by norm_num [step]) (by decide) k5
  have e7 : scan_step 0 0.594 data_one_place false
      { maxValue := score_at 0 0.604, dx := 0, dy := 1, func_evals := 6 } 1 (-1)
      = { maxValue := score_at 0 0.604, dx := 0, dy := 1, func_evals := 7 } :=
    scan_step_keep 0 0.594 data_one_place false _ _ _ 0.01 0.584
      (by norm_num [step]) (by norm_num [step]) (by decide) k6
  have e8 : scan_step 0 0.594 data_one_place false
      { maxValue := score_at 0 0.604, dx := 0, dy := 1, func_evals := 7 } 1 0
      = { maxValue := score_at 0 0.604, dx := 0, dy := 1, func_evals := 8 } :=
    scan_step_keep 0 0.594 data_one_place false _ _ _ 0.01 0.594
      (by norm_num [step]) (by norm_num [step]) (by decide) k7
  have e9 : scan_step 0 0.594 data_one_place false
      { maxValue := score_at 0 0.604, dx := 0, dy := 1, func_evals := 8 } 1 1
      = { maxValue := score_at 0 0.604, dx := 0, dy := 1, func_evals := 9 } :=
    scan_step_keep 0 0.594 data_one_place false _ _ _ 0.01 0.604
      (by norm_num [step]) (by norm_num [step]) (by decide) k8
  have e : neighbour_scan 0 0.594 data_one_place false
      { maxValue := score_at 0 0.594, dx := dx, dy := dy, func_evals := 1 }
      = { maxValue := score_at 0 0.604, dx := 0, dy := 1, func_evals := 9 } := by
    simp only [neighbour_scan, List.foldl]
    rw [e1, e2, e3, e4, e5, e6, e7, e8, e9]
  rw [start_state_eq]
  simp only [hill_round, e, middle_state, HubState.mk.injEq]
  constructor
  · norm_num [step]
  constructor
  · norm_num [step]
  · simp [score_at]

/-- In `middle_state` every one of the 8 neighbours scores strictly less than the current
value. -/
theorem middle_state_neighbours (i j : Int) (hi : i = -1 ∨ i = 0 ∨ i = 1)
    (hj : j = -1 ∨ j = 0 ∨ j = 1) (h0 : ¬(i = 0 ∧ j = 0)) :
    (cost_function (middle_state.x + step * i) (middle_state.y + step * j)
      data_one_place false 0).1 < middle_state.value := by
  show score_at _ _ < score_at 0 0.604
  rcases hi with rfl | rfl | rfl <;> rcases hj with rfl | rfl | rfl
  all_goals first
    | exact (h0 (by decide)).elim
    | (apply score_at_lt <;> norm_num [middle_state, step])

/-- The second round: no neighbour is as good as the current value, and the hub still
moves, from `(0, 0.604)` to `(0, 0.614)`. -/
theorem second_round : hill_round data_one_place false middle_state = final_state := by
  rw [hill_round_no_improvement data_one_place false middle_state middle_state_neighbours]
  simp only [middle_state, final_state, HubState.mk.injEq]
  norm_num [step]

theorem score_at_middle_gt : score_at 0 0.594 < score_at 0 0.604 :=
  score_at_lt (by norm_num) (by norm_num) (by norm_num) (by norm_num) (by norm_num)

/-- The round-trip hill climb that `main` runs on `data_one_place` with `rand ()` values 0
and 99 leaves its loop after two rounds, in `final_state`. -/
theorem hill_loop_from_start (dx dy : Int) :
    hill_loop data_one_place false 2 (start_state dx dy) = some final_state := by
  have h1 : (start_state dx dy).value < middle_state.value := by
    rw [start_state_eq]
    exact score_at_middle_gt
  have h2 : ¬(final_state.value > middle_state.value) := lt_irrefl _
  simp only [hill_loop, first_round, second_round, gt_iff_lt, h1, if_true]
  rw [if_neg h2]

/-- Witness for C4: the round-trip run of `main` on `data_one_place`, and a two-hub run on
an empty data set, both leave their loop with a value at least the initial one. -/
theorem hill_climb_score_never_decreases_witness :
    hill_loop data_one_place false 2 (start_state 0 0) = some final_state
      ∧ (start_state 0 0).value ≤ final_state.value
      ∧ hill_loop_2hubs [] 1 two_hub_start = some (hill_round_2hubs [] two_hub_start)
      ∧ two_hub_start.value ≤ (hill_round_2hubs [] two_hub_start).value := by
  have h2 : hill_loop_2hubs [] 1 two_hub_start = some (hill_round_2hubs [] two_hub_start) := by
    have hv : (hill_round_2hubs [] two_hub_start).value = two_hub_start.value := by
      simp [hill_round_2hubs, neighbour_scan_2hubs, scan_step_2hubs, cost_function_2hubs,
        sum_dist_2hubs, recip, two_hub_start]
    simp [hill_loop_2hubs, hv]
  exact ⟨hill_loop_from_start 0 0,
    (hill_climb_score_never_decreases data_one_place).2.2.2.2.1 false 2 _ _
      (hill_loop_from_start 0 0),
    h2, (hill_climb_score_never_decreases []).2.2.2.2.2 1 _ _ h2⟩

/-! ## The hub keeps moving in a round without improvement -/

/-- C5 (the code departs from the claim). On `data_one_place`, with `rand ()` values 0 and
99 and any initial content of `dx`, `dy`, the round-trip loop of `main` exits after two
rounds. In the second round all 8 neighbours of the hub `(0, 0.604)` score strictly less
than the current value, yet the round adds `step * dy` with the `dy = 1` left by the first
round: the loop exits with the hub at `(0, 0.614)`, where the cost function is strictly
below the value it reports. -/
theorem hill_climb_stale_offset (dx dy : Int) :
    hill_loop data_one_place false 2 (start_state dx dy) = some final_state
      ∧ hill_round data_one_place false (start_state dx dy) = middle_state
      ∧ hill_round data_one_place false middle_state = final_state
      ∧ List.Forall (fun p : Int × Int =>
          (cost_function (middle_state.x + step * p.1) (middle_state.y + step * p.2)
            data_one_place false 0).1 < middle_state.value) neighbour_offsets
      ∧ final_state.y = middle_state.y + step * middle_state.dy
      ∧ final_state.y ≠ middle_state.y
      ∧ (cost_function final_state.x final_state.y data_one_place false
          final_state.func_evals).1 < final_state.value := by
  refine ⟨hill_loop_from_start dx dy, first_round dx dy, second_round, ?_, ?_, ?_, ?_⟩
  · simp only [neighbour_offsets, List.Forall]
    refine ⟨?_, ?_, ?_, ?_, ?_, ?_, ?_, ?_⟩ <;>
      exact middle_state_neighbours _ _ (by decide) (by decide) (by decide)
  · norm_num [final_state, middle_state, step]
  · norm_num [final_state, middle_state]
  · show score_at 0 0.614 < score_at 0 0.604
    exact score_at_lt (by norm_num) (by norm_num) (by norm_num) (by norm_num) (by norm_num)

/-! ## Two hubs at the same place -/

/-- C11. With both hubs at the same coordinates, `cost_function_2hubs` returns the score
that `cost_function` returns with `improve = false` (and the same new counter). -/
theorem cost_function_2hubs_same_hub (hx hy : ℝ) (places : List Columns) (func_evals : Int) :
    (cost_function_2hubs hx hy hx hy places func_evals).1
        = (cost_function hx hy places false func_evals).1
      ∧ cost_function_2hubs hx hy hx hy places func_evals
        = cost_function hx hy places false func_evals := by
  have h : sum_dist_2hubs hx hy hx hy places = sum_dist_round_trip hx hy places := by
    rw [sum_dist_2hubs_eq, sum_dist_round_trip_eq]
    simp
  constructor <;> simp [cost_function_2hubs, cost_function, h]

/-! ## The bounding box -/

theorem foldl_min_max_step_max_y (data : List Columns) (b : Bounds) :
    (data.foldl min_max_step b).max_y
      = List.foldl max b.max_y (data.map (fun p => p.longitude)) := by
  induction data generalizing b with
  | nil => simp
  | cons p ps ih =>
    simp only [List.foldl_cons, List.map_cons]
    rw [ih]
    congr 1
    simp only [min_max_step]
    by_cases h : p.longitude > b.max_y
    · rw [if_pos h, max_eq_right (le_of_lt h)]
    · rw [if_neg h, max_eq_left (not_lt.mp h)]

theorem foldl_max_ge_seed (l : List ℝ) (d : ℝ) : d ≤ List.foldl max d l := by
  induction l generalizing d with
  | nil => simp
  | cons a l ih => exact le_trans (le_max_left d a) (ih (max d a))

theorem foldl_max_ge_mem (l : List ℝ) (d : ℝ) :
    List.Forall (fun a => a ≤ List.foldl max d l) l := by
  induction l generalizing d with
  | nil => simp
  | cons a l ih =>
    rw [List.forall_cons]
    exact ⟨le_trans (le_max_right d a) (foldl_max_ge_seed l (max d a)), ih (max d a)⟩

theorem foldl_max_attained (l : List ℝ) (d : ℝ) :
    List.foldl max d l = d ∨ List.foldl max d l ∈ l := by
  induction l generalizing d with
  | nil => simp
  | cons a l ih =>
    rcases ih (max d a) with h | h
    · rcases max_choice d a with h2 | h2
      · left
        simp only [List.foldl_cons]
        rw [h, h2]
      · right
        simp only [List.foldl_cons]
        rw [h, h2]
        exact List.mem_cons_self _ _
    · right
      exact List.mem_cons_of_mem _ h

/-- C20. `min_max_finder` returns one number, the final value of its `max_y` accumulator:
the maximum of the `max_y` seed and the longitudes of all places, whatever the other three
seeds are. After the call of `main` the variables `min_lat`, `min_long`, `max_lat` are
still 0 and `max_long` is the maximum of 0 and the longitudes. -/
theorem min_max_finder_returns_max_long (min_x min_y max_x max_y : ℝ)
    (data : List Columns) :
    min_max_finder min_x min_y max_x max_y data
        = List.foldl max max_y (data.map (fun p => p.longitude))
      ∧ max_y ≤ min_max_finder min_x min_y max_x max_y data
      ∧ List.Forall
          (fun p : Columns => p.longitude ≤ min_max_finder min_x min_y max_x max_y data) data
      ∧ (min_max_finder min_x min_y max_x max_y data = max_y
          ∨ min_max_finder min_x min_y max_x max_y data ∈ data.map (fun p => p.longitude))
      ∧ min_max_finder min_x min_y max_x max_y data = min_max_finder 0 0 0 max_y data
      ∧ (main_bounding_box data).min_x = 0
      ∧ (main_bounding_box data).min_y = 0
      ∧ (main_bounding_box data).max_x = 0
      ∧ (main_bounding_box data).max_y
          = List.foldl max 0 (data.map (fun p => p.longitude)) := by
  have h : ∀ a b c : ℝ, min_max_finder a b c max_y data
      = List.foldl max max_y (data.map (fun p => p.longitude)) := by
    intro a b c
    unfold min_max_finder
    rw [foldl_min_max_step_max_y]
  refine ⟨h _ _ _, ?_, ?_, ?_, ?_, rfl, rfl, rfl, ?_⟩
  · rw [h]
    exact foldl_max_ge_seed _ _
  · rw [h]
    have := foldl_max_ge_mem (data.map (fun p => p.longitude)) max_y
    rw [List.forall_map_iff] at this
    exact this
  · rw [h]
    exact foldl_max_attained _ _
  · rw [h, h]
  · show min_max_finder 0 0 0 0 data = _
    unfold min_max_finder
    rw [foldl_min_max_step_max_y]

/-- C12 (the code departs from the claim). For the one-place data set `data_london`
(latitude 51.5, longitude -0.1) the accumulators of `min_max_finder`, seeded at 0, end at
`min_x = 0`, `min_y = -0.1`, `max_x = 51.5`, `max_y = 0`; the function returns only
`max_y = 0`, and the four variables of `main` are all 0 after line 225: none of them is
the latitude 51.5 or the longitude -0.1 of the place. -/
theorem bounding_box_london :
    data_london.foldl min_max_step { min_x := 0, min_y := 0, max_x := 0, max_y := 0 }
        = { min_x := 0, min_y := -0.1, max_x := 51.5, max_y := 0 }
      ∧ min_max_finder 0 0 0 0 data_london = 0
      ∧ main_bounding_box data_london = { min_x := 0, min_y := 0, max_x := 0, max_y := 0 }
      ∧ (main_bounding_box data_london).min_x ≠ place_london.latitude
      ∧ (main_bounding_box data_london).max_x ≠ place_london.latitude
      ∧ (main_bounding_box data_london).min_y ≠ place_london.longitude
      ∧ (main_bounding_box data_london).max_y ≠ place_london.longitude := by
  have h1 : data_london.foldl min_max_step { min_x := 0, min_y := 0, max_x := 0, max_y := 0 }
      = { min_x := 0, min_y := -0.1, max_x := 51.5, max_y := 0 } := by
    simp only [data_london, List.foldl, min_max_step, place_london, Bounds.mk.injEq]
    norm_num
  have h2 : min_max_finder 0 0 0 0 data_london = 0 := by
    unfold min_max_finder
    rw [h1]
  have h3 : main_bounding_box data_london
      = { min_x := 0, min_y := 0, max_x := 0, max_y := 0 } := by
    simp only [main_bounding_box, h2]
  refine ⟨h1, h2, h3, ?_, ?_, ?_, ?_⟩ <;> rw [h3] <;> norm_num [place_london]

theorem random_number_generator_same (b : ℝ) (n : Int) (rand : Nat) :
    random_number_generator b b n rand = b := by
  simp [random_number_generator]

/-- C13 (the code departs from the claim). For the one-place data set `data_london` and
every pair of values returned by `rand ()`, the round-trip scenario starts at the hub
`(0, 0)`, outside the bounding box of the places: 0 is below the least latitude 51.5 and
above the greatest longitude -0.1. For every data set the start latitude is 0. -/
theorem start_position_london (rand1 rand2 : Nat) (dx dy : Int) :
    (main_round_trip_start data_london rand1 rand2 dx dy).x = 0
      ∧ (main_round_trip_start data_london rand1 rand2 dx dy).y = 0
      ∧ (main_round_trip_start data_london rand1 rand2 dx dy).x < place_london.latitude
      ∧ place_london.longitude < (main_round_trip_start data_london rand1 rand2 dx dy).y
      ∧ ∀ data : List Columns, (main_round_trip_start data rand1 rand2 dx dy).x = 0 := by
  have h2 : min_max_finder 0 0 0 0 data_london = 0 := by
    simp only [min_max_finder, data_london, List.foldl, min_max_step, place_london]
    norm_num
  have hx : ∀ data : List Columns, (main_round_trip_start data rand1 rand2 dx dy).x = 0 := by
    intro data
    simp only [main_round_trip_start]
    exact random_number_generator_same 0 100 rand1
  have hy : (main_round_trip_start data_london rand1 rand2 dx dy).y = 0 := by
    simp only [main_round_trip_start, h2]
    exact random_number_generator_same 0 100 rand2
  refine ⟨hx _, hy, ?_, ?_, hx⟩
  · rw [hx]
    norm_num [place_london]
  · rw [hy]
    norm_num [place_london]

/-! ## The distance of a point from itself -/

theorem calc_distance_same_point (lat long : ℝ) : calc_distance lat long lat long = 0 := by
  simp [calc_distance, haversine_a, atan2]

/-! ## Two hubs against one hub -/

theorem hill_round_2hubs_displacement (data : List Columns) (s : TwoHubState) :
    (hill_round_2hubs data s).hub2_x - s.hub2_x
        = 2 * ((hill_round_2hubs data s).hub1_x - s.hub1_x)
      ∧ (hill_round_2hubs data s).hub2_y - s.hub2_y
        = 2 * ((hill_round_2hubs data s).hub1_y - s.hub1_y) := by
  simp only [hill_round_2hubs, step1, step2]
  constructor <;> ring

theorem hill_round_2hubs_iterate_displacement (data : List Columns) (k : Nat)
    (s : TwoHubState) :
    ((hill_round_2hubs data)^[k] s).hub2_x - s.hub2_x
        = 2 * (((hill_round_2hubs data)^[k] s).hub1_x - s.hub1_x)
      ∧ ((hill_round_2hubs data)^[k] s).hub2_y - s.hub2_y
        = 2 * (((hill_round_2hubs data)^[k] s).hub1_y - s.hub1_y) := by
  induction k generalizing s with
  | zero => simp
  | succ k ih =>
    rw [Function.iterate_succ_apply]
    have h1 := hill_round_2hubs_displacement data s
    have h2 := ih (hill_round_2hubs data s)
    constructor
    · linarith [h1.1, h2.1]
    · linarith [h1.2, h2.2]

theorem hill_loop_2hubs_displacement (data : List Columns) (fuel : Nat) (s t : TwoHubState)
    (h : hill_loop_2hubs data fuel s = some t) :
    t.hub2_x - s.hub2_x = 2 * (t.hub1_x - s.hub1_x)
      ∧ t.hub2_y - s.hub2_y = 2 * (t.hub1_y - s.hub1_y) := by
  induction fuel generalizing s with
  | zero => simp [hill_loop_2hubs] at h
  | succ fuel ih =>
    simp only [hill_loop_2hubs] at h
    have h1 := hill_round_2hubs_displacement data s
    split at h
    · have h2 := ih _ h
      constructor
      · linarith [h1.1, h2.1]
      · linarith [h1.2, h2.2]
    · cases h
      exact h1

theorem hill_loop_2hubs_empty :
    hill_loop_2hubs [] 1 two_hub_start = some (hill_round_2hubs [] two_hub_start) := by
  have hv : (hill_round_2hubs [] two_hub_start).value = two_hub_start.value := by
    simp [hill_round_2hubs, neighbour_scan_2hubs, scan_step_2hubs, cost_function_2hubs,
      sum_dist_2hubs, recip, two_hub_start]
  simp [hill_loop_2hubs, hv]

/-- C19. In the two-hub hill climb every round moves both hubs by the same offset
`(dx, dy)`, hub 1 scaled by `step1 = 0.01` and hub 2 by `step2 = 0.02`; hence after every
number of rounds, and when the loop ends, the displacement of hub 2 from its initial
position is exactly twice that of hub 1, in latitude and in longitude. -/
theorem two_hubs_move_together (data : List Columns) :
    step1 = 0.01 ∧ step2 = 0.02
      ∧ (∀ s : TwoHubState,
          (hill_round_2hubs data s).hub1_x = s.hub1_x + step1 * (hill_round_2hubs data s).dx
            ∧ (hill_round_2hubs data s).hub1_y
                = s.hub1_y + step1 * (hill_round_2hubs data s).dy
            ∧ (hill_round_2hubs data s).hub2_x
                = s.hub2_x + step2 * (hill_round_2hubs data s).dx
            ∧ (hill_round_2hubs data s).hub2_y
                = s.hub2_y + step2 * (hill_round_2hubs data s).dy)
      ∧ (∀ (k : Nat) (s : TwoHubState),
          ((hill_round_2hubs data)^[k] s).hub2_x - s.hub2_x
              = 2 * (((hill_round_2hubs data)^[k] s).hub1_x - s.hub1_x)
            ∧ ((hill_round_2hubs data)^[k] s).hub2_y - s.hub2_y
              = 2 * (((hill_round_2hubs data)^[k] s).hub1_y - s.hub1_y))
      ∧ (∀ (fuel : Nat) (s t : TwoHubState), hill_loop_2hubs data fuel s = some t →
          t.hub2_x - s.hub2_x = 2 * (t.hub1_x - s.hub1_x)
            ∧ t.hub2_y - s.hub2_y = 2 * (t.hub1_y - s.hub1_y)) :=
  ⟨rfl, rfl, fun _ => ⟨rfl, rfl, rfl, rfl⟩, hill_round_2hubs_iterate_displacement data,
    hill_loop_2hubs_displacement data⟩

/-- Witness for C19: the two-hub loop on an empty data set, both hubs starting at `(0, 0)`,
ends after one round with hub 1 at `(0.01, 0.01)` and hub 2 at `(0.02, 0.02)`. -/
theorem two_hubs_move_together_witness :
    hill_loop_2hubs [] 1 two_hub_start = some (hill_round_2hubs [] two_hub_start)
      ∧ (hill_round_2hubs [] two_hub_start).hub1_x = 0.01
      ∧ (hill_round_2hubs [] two_hub_start).hub2_x = 0.02
      ∧ (hill_round_2hubs [] two_hub_start).hub2_x - two_hub_start.hub2_x
          = 2 * ((hill_round_2hubs [] two_hub_start).hub1_x - two_hub_start.hub1_x)
      ∧ (hill_round_2hubs [] two_hub_start).hub2_y - two_hub_start.hub2_y
          = 2 * ((hill_round_2hubs [] two_hub_start).hub1_y - two_hub_start.hub1_y) := by
  have h := (two_hubs_move_together []).2.2.2.2 1 _ _ hill_loop_2hubs_empty
  have hd : (hill_round_2hubs [] two_hub_start).dx = 1 := by
    simp [hill_round_2hubs, neighbour_scan_2hubs, scan_step_2hubs, cost_function_2hubs,
      sum_dist_2hubs, recip, two_hub_start]
  have h1 : (hill_round_2hubs [] two_hub_start).hub1_x = 0.01 := by
    have e : (hill_round_2hubs [] two_hub_start).hub1_x
        = two_hub_start.hub1_x + step1 * (hill_round_2hubs [] two_hub_start).dx := rfl
    rw [e, hd]
    norm_num [two_hub_start, step1]
  have h2 : (hill_round_2hubs [] two_hub_start).hub2_x = 0.02 := by
    have e : (hill_round_2hubs [] two_hub_start).hub2_x
        = two_hub_start.hub2_x + step2 * (hill_round_2hubs [] two_hub_start).dx := rfl
    rw [e, hd]
    norm_num [two_hub_start, step2]
  exact ⟨hill_loop_2hubs_empty, h1, h2, h.1, h.2⟩

/-! ## Which neighbour a round takes -/

theorem neighbour_scan_eq_foldl (x y : ℝ) (data : List Columns) (improve : Bool)
    (acc : Scan) :
    neighbour_scan x y data improve acc
      = neighbour_offsets.foldl (fun a p => scan_step x y data improve a p.1 p.2) acc := by
  have skip : ∀ a : Scan, scan_step x y data improve a 0 0 = a := by
    intro a
    simp [scan_step]
  simp only [neighbour_scan, neighbour_offsets, List.foldl, skip]

theorem neighbour_offsets_ne_zero (p : Int × Int) (hp : p ∈ neighbour_offsets) :
    ¬(p.1 = 0 ∧ p.2 = 0) := by
  simp only [neighbour_offsets, List.mem_cons, List.mem_singleton, List.not_mem_nil,
    or_false] at hp
  rcases hp with rfl | rfl | rfl | rfl | rfl | rfl | rfl | rfl <;> decide

/-- What the neighbour loops compute over a list of offsets, none of them `(0, 0)`: the
running maximum, one evaluation per offset, and as `(dx, dy)` the last offset whose score
reaches the maximum (or the previous content when no score reaches `maxValue`). -/
theorem scan_foldl_spec (x y : ℝ) (data : List Columns) (improve : Bool)
    (l : List (Int × Int)) (hl : ∀ p ∈ l, ¬(p.1 = 0 ∧ p.2 = 0)) (acc : Scan) :
    acc.maxValue ≤ (l.foldl (fun a p => scan_step x y data improve a p.1 p.2) acc).maxValue
      ∧ (∀ p ∈ l, (cost_function (x + step * p.1) (y + step * p.2) data improve 0).1
          ≤ (l.foldl (fun a p => scan_step x y data improve a p.1 p.2) acc).maxValue)
      ∧ (l.foldl (fun a p => scan_step x y data improve a p.1 p.2) acc).func_evals
          = acc.func_evals + l.length
      ∧ (((∀ p ∈ l, (cost_function (x + step * p.1) (y + step * p.2) data improve 0).1
              < acc.maxValue)
            ∧ (l.foldl (fun a p => scan_step x y data improve a p.1 p.2) acc).maxValue
                = acc.maxValue
            ∧ (l.foldl (fun a p => scan_step x y data improve a p.1 p.2) acc).dx = acc.dx
            ∧ (l.foldl (fun a p => scan_step x y data improve a p.1 p.2) acc).dy = acc.dy)
          ∨ ∃ l1 p l2, l = l1 ++ p :: l2
              ∧ (l.foldl (fun a p => scan_step x y data improve a p.1 p.2) acc).dx = p.1
              ∧ (l.foldl (fun a p => scan_step x y data improve a p.1 p.2) acc).dy = p.2
              ∧ (l.foldl (fun a p => scan_step x y data improve a p.1 p.2) acc).maxValue
                  = (cost_function (x + step * p.1) (y + step * p.2) data improve 0).1
              ∧ ∀ q ∈ l2, (cost_function (x + step * q.1) (y + step * q.2) data improve 0).1
                  < (cost_function (x + step * p.1) (y + step * p.2) data improve 0).1) := by
  induction l generalizing acc with
  | nil => simp
  | cons a t ih =>
    have ha : ¬(a.1 = 0 ∧ a.2 = 0) := hl a (List.mem_cons_self _ _)
    have ht : ∀ p ∈ t, ¬(p.1 = 0 ∧ p.2 = 0) := fun p hp => hl p (List.mem_cons_of_mem _ hp)
    simp only [List.foldl_cons, List.length_cons]
    by_cases hc : acc.maxValue
        ≤ (cost_function (x + step * a.1) (y + step * a.2) data improve 0).1
    · rw [scan_step_take x y data improve acc a.1 a.2 _ _ rfl rfl ha hc]
      obtain ⟨i1, i2, i3, i4⟩ := ih ht
        { maxValue := (cost_function (x + step * a.1) (y + step * a.2) data improve 0).1,
          dx := a.1, dy := a.2, func_evals := acc.func_evals + 1 }
      refine ⟨le_trans hc i1, ?_, ?_, ?_⟩
      · intro p hp
        rcases List.mem_cons.mp hp with rfl | hp
        · exact i1
        · exact i2 p hp
      · rw [i3]
        push_cast
        ring
      · right
        rcases i4 with ⟨j1, j2, j3, j4⟩ | ⟨l1, p, l2, j1, j2, j3, j4, j5⟩
        · exact ⟨[], a, t, rfl, j3, j4, j2, j1⟩
        · exact ⟨a :: l1, p, l2, by rw [j1]; rfl, j2, j3, j4, j5⟩
    · have hc2 := not_le.mp hc
      rw [scan_step_keep x y data improve acc a.1 a.2 _ _ rfl rfl ha hc2]
      obtain ⟨i1, i2, i3, i4⟩ := ih ht
        { maxValue := acc.maxValue, dx := acc.dx, dy := acc.dy,
          func_evals := acc.func_evals + 1 }
      refine ⟨i1, ?_, ?_, ?_⟩
      · intro p hp
        rcases List.mem_cons.mp hp with rfl | hp
        · exact le_trans hc2.le i1
        · exact i2 p hp
      · rw [i3]
        push_cast
        ring
      · rcases i4 with ⟨j1, j2, j3, j4⟩ | ⟨l1, p, l2, j1, j2, j3, j4, j5⟩
        · left
          refine ⟨?_, j2, j3, j4⟩
          intro p hp
          rcases List.mem_cons.mp hp with rfl | hp
          · exact hc2
          · exact j1 p hp
        · right
          exact ⟨a :: l1, p, l2, by rw [j1]; rfl, j2, j3, j4, j5⟩

theorem hill_round_scan (data : List Columns) (improve : Bool) (s : HubState) :
    hill_round data improve s
      = { x := s.x + step * (neighbour_offsets.foldl
              (fun a p => scan_step s.x s.y data improve a p.1 p.2)
              { maxValue := s.value, dx := s.dx, dy := s.dy,
                func_evals := s.func_evals }).dx
          y := s.y + step * (neighbour_offsets.foldl
              (fun a p => scan_step s.x s.y data improve a p.1 p.2)
              { maxValue := s.value, dx := s.dx, dy := s.dy,
                func_evals := s.func_evals }).dy
          value := (neighbour_offsets.foldl
              (fun a p => scan_step s.x s.y data improve a p.1 p.2)
              { maxValue := s.value, dx := s.dx, dy := s.dy,
                func_evals := s.func_evals }).maxValue
          dx := (neighbour_offsets.foldl
              (fun a p => scan_step s.x s.y data improve a p.1 p.2)
              { maxValue := s.value, dx := s.dx, dy := s.dy,
                func_evals := s.func_evals }).dx
          dy := (neighbour_offsets.foldl
              (fun a p => scan_step s.x s.y data improve a p.1 p.2)
              { maxValue := s.value, dx := s.dx, dy := s.dy,
                func_evals := s.func_evals }).dy
          iter := s.iter + 1
          func_evals := (neighbour_offsets.foldl
              (fun a p => scan_step s.x s.y data improve a p.1 p.2)
              { maxValue := s.value, dx := s.dx, dy := s.dy,
                func_evals := s.func_evals }).func_evals } := by
  simp only [hill_round, neighbour_scan_eq_foldl]

/-- A single-hub round evaluates the cost function 8 times and adds 1 to `iter`. -/
theorem hill_round_counts (data : List Columns) (improve : Bool) (s : HubState) :
    (hill_round data improve s).func_evals = s.func_evals + 8
      ∧ (hill_round data improve s).iter = s.iter + 1 := by
  rw [hill_round_scan]
  have h := (scan_foldl_spec s.x s.y data improve neighbour_offsets neighbour_offsets_ne_zero
    { maxValue := s.value, dx := s.dx, dy := s.dy, func_evals := s.func_evals }).2.2.1
  refine ⟨?_, rfl⟩
  simp only [h]
  rfl

/-- The neighbour a round takes when some neighbour is at least as good as the current
value: the last offset, in loop order, whose score is the greatest of the 8. -/
theorem hill_round_last_best (data : List Columns) (improve : Bool) (s : HubState)
    (h : ∃ p ∈ neighbour_offsets, s.value ≤ neighbour_score data improve s p) :
    (∀ p ∈ neighbour_offsets,
        neighbour_score data improve s p ≤ (hill_round data improve s).value)
      ∧ ∃ l1 l2, neighbour_offsets
            = l1 ++ ((hill_round data improve s).dx, (hill_round data improve s).dy) :: l2
          ∧ (hill_round data improve s).value = neighbour_score data improve s
              ((hill_round data improve s).dx, (hill_round data improve s).dy)
          ∧ ∀ q ∈ l2,
              neighbour_score data improve s q < (hill_round data improve s).value := by
  rw [hill_round_scan]
  obtain ⟨i1, i2, _, i4⟩ := scan_foldl_spec s.x s.y data improve neighbour_offsets
    neighbour_offsets_ne_zero
    { maxValue := s.value, dx := s.dx, dy := s.dy, func_evals := s.func_evals }
  refine ⟨i2, ?_⟩
  rcases i4 with ⟨j1, _, _, _⟩ | ⟨l1, p, l2, j1, j2, j3, j4, j5⟩
  · obtain ⟨p, hp, hle⟩ := h
    exact absurd (j1 p hp) (not_lt.mpr hle)
  · refine ⟨l1, l2, ?_, ?_, ?_⟩
    · simp only [j2, j3]
      exact j1
    · simp only [j2, j3, j4]
      rfl
    · intro q hq
      simp only [j4]
      exact j5 q hq

/-- C17. In a single-hub round in which at least one of the 8 neighbours scores at least
the current value: the new value is the greatest of the 8 neighbour scores; the offset
`(dx, dy)` taken is the last one, in loop order (`i` outer, `j` inner, `(0, 0)` left out),
whose score is that greatest score; the hub moves by `step * (dx, dy)`; and when all 8
neighbours tie with the current value the offset taken is `(1, 1)`. -/
theorem hill_round_takes_last_best (data : List Columns) (improve : Bool) (s : HubState)
    (h : ∃ p ∈ neighbour_offsets, s.value ≤ neighbour_score data improve s p) :
    (∀ p ∈ neighbour_offsets,
        neighbour_score data improve s p ≤ (hill_round data improve s).value)
      ∧ (∃ l1 l2, neighbour_offsets
            = l1 ++ ((hill_round data improve s).dx, (hill_round data improve s).dy) :: l2
          ∧ (hill_round data improve s).value = neighbour_score data improve s
              ((hill_round data improve s).dx, (hill_round data improve s).dy)
          ∧ ∀ q ∈ l2, neighbour_score data improve s q < (hill_round data improve s).value)
      ∧ (hill_round data improve s).x = s.x + step * (hill_round data improve s).dx
      ∧ (hill_round data improve s).y = s.y + step * (hill_round data improve s).dy
      ∧ ((∀ p ∈ neighbour_offsets, neighbour_score data improve s p = s.value) →
          (hill_round data improve s).dx = 1 ∧ (hill_round data improve s).dy = 1
            ∧ (hill_round data improve s).value = s.value) := by
  obtain ⟨a1, l1, l2, b1, b2, b3⟩ := hill_round_last_best data improve s h
  refine ⟨a1, ⟨l1, l2, b1, b2, b3⟩, rfl, rfl, ?_⟩
  intro htie
  have hmem : ∀ q ∈ l2, q ∈ neighbour_offsets := by
    intro q hq
    rw [b1]
    exact List.mem_append_right _ (List.mem_cons_of_mem _ hq)
  have hd : ((hill_round data improve s).dx, (hill_round data improve s).dy)
      ∈ neighbour_offsets := by
    rw [b1]
    exact List.mem_append_right _ (List.mem_cons_self _ _)
  have hv : (hill_round data improve s).value = s.value := by
    rw [b2]
    exact htie _ hd
  have hl2 : l2 = [] := by
    cases l2 with
    | nil => rfl
    | cons q t =>
      have hq := b3 q (List.mem_cons_self _ _)
      rw [htie q (hmem q (List.mem_cons_self _ _)), hv] at hq
      exact absurd hq (lt_irrefl _)
  subst hl2
  have e : neighbour_offsets
      = [(-1, -1), (-1, 0), (-1, 1), (0, -1), (0, 1), (1, -1), (1, 0)]
        ++ [((1 : Int), (1 : Int))] :=
    rfl
  rw [e] at b1
  have := (List.append_inj' b1 rfl).2
  simp only [List.cons.injEq, Prod.mk.injEq, and_true] at this
  exact ⟨this.1.symm, this.2.symm, hv⟩

theorem neighbour_score_empty (improve : Bool) (s : HubState) (p : Int × Int) :
    neighbour_score [] improve s p = ⊤ := by
  cases improve <;>
    simp [neighbour_score, cost_function, sum_dist_round_trip, sum_dist_chained, recip]

/-- Witness for C17: in the first round of `main` on `data_one_place` the neighbour at
offset `(0, 1)` is at least as good as the current value; on an empty data set all 8
neighbours tie with the current value and the offset taken is `(1, 1)`. -/
theorem hill_round_takes_last_best_witness :
    (∃ p ∈ neighbour_offsets,
        (start_state 0 0).value ≤ neighbour_score data_one_place false (start_state 0 0) p)
      ∧ (hill_round data_one_place false (start_state 0 0)).y
          = (start_state 0 0).y + step * (hill_round data_one_place false (start_state 0 0)).dy
      ∧ (∀ p ∈ neighbour_offsets,
          neighbour_score [] false empty_data_state p = empty_data_state.value)
      ∧ (hill_round [] false empty_data_state).dx = 1
      ∧ (hill_round [] false empty_data_state).dy = 1 := by
  have h1 : ∃ p ∈ neighbour_offsets,
      (start_state 0 0).value ≤ neighbour_score data_one_place false (start_state 0 0) p := by
    refine ⟨(0, 1), by simp [neighbour_offsets], ?_⟩
    rw [start_state_eq]
    have e1 : (0 : ℝ) + step * ((0 : Int) : ℝ) = 0 := by norm_num [step]
    have e2 : (0.594 : ℝ) + step * ((1 : Int) : ℝ) = 0.604 := by norm_num [step]
    show score_at 0 0.594
      ≤ score_at (0 + step * ((0 : Int) : ℝ)) (0.594 + step * ((1 : Int) : ℝ))
    rw [e1, e2]
    exact score_at_middle_gt.le
  have hv : empty_data_state.value = ⊤ := by
    simp [empty_data_state, cost_function, sum_dist_round_trip, recip]
  have h2 : ∀ p ∈ neighbour_offsets,
      neighbour_score [] false empty_data_state p = empty_data_state.value := by
    intro p _
    rw [neighbour_score_empty, hv]
  have h3 : ∃ p ∈ neighbour_offsets,
      empty_data_state.value ≤ neighbour_score [] false empty_data_state p :=
    ⟨(1, 1), by simp [neighbour_offsets], (h2 _ (by simp [neighbour_offsets])).ge⟩
  have c1 := hill_round_takes_last_best data_one_place false (start_state 0 0) h1
  have c2 := (hill_round_takes_last_best [] false empty_data_state h3).2.2.2.2 h2
  exact ⟨h1, c1.2.2.2.1, h2, c2.1, c2.2.1⟩

/-! ## What the evaluation counter reports -/

theorem hill_round_unique_best (data : List Columns) (improve : Bool) (s : HubState)
    (p : Int × Int) (hp : p ∈ neighbour_offsets)
    (h1 : s.value ≤ neighbour_score data improve s p)
    (h2 : ∀ q ∈ neighbour_offsets, q ≠ p →
      neighbour_score data improve s q < neighbour_score data improve s p) :
    hill_round data improve s
      = { x := s.x + step * p.1
          y := s.y + step * p.2
          value := neighbour_score data improve s p
          dx := p.1
          dy := p.2
          iter := s.iter + 1
          func_evals := s.func_evals + 8 } := by
  obtain ⟨a1, l1, l2, b1, b2, _⟩ := hill_round_last_best data improve s ⟨p, hp, h1⟩
  have hmem : ((hill_round data improve s).dx, (hill_round data improve s).dy)
      ∈ neighbour_offsets := by
    rw [b1]
    exact List.mem_append_right _ (List.mem_cons_self _ _)
  have hd : ((hill_round data improve s).dx, (hill_round data improve s).dy) = p := by
    by_contra hne
    have := h2 _ hmem hne
    rw [← b2] at this
    exact absurd (a1 p hp) (not_le.mpr this)
  have hc := hill_round_counts data improve s
  have hx : (hill_round data improve s).x = s.x + step * (hill_round data improve s).dx := rfl
  have hy : (hill_round data improve s).y = s.y + step * (hill_round data improve s).dy := rfl
  rw [hd] at b2
  have e1 : (hill_round data improve s).dx = p.1 := congrArg Prod.fst hd
  have e2 : (hill_round data improve s).dy = p.2 := congrArg Prod.snd hd
  rw [e1] at hx
  rw [e2] at hy
  generalize hill_round data improve s = t at *
  cases t
  simp only at hx hy b2 e1 e2 hc
  simp only [HubState.mk.injEq]
  exact ⟨hx, hy, b2, e1, e2, hc.2, hc.1⟩

theorem hill_loop_counts (data : List Columns) (improve : Bool) (fuel : Nat)
    (s t : HubState) (h : hill_loop data improve fuel s = some t) :
    t.func_evals - s.func_evals = 8 * (t.iter - s.iter) ∧ s.iter + 1 ≤ t.iter := by
  induction fuel generalizing s with
  | zero => simp [hill_loop] at h
  | succ fuel ih =>
    simp only [hill_loop] at h
    have hc := hill_round_counts data improve s
    split at h
    · have h2 := ih _ h
      constructor <;> omega
    · cases h
      constructor <;> omega

theorem chained_score_eq (x y : ℝ) (n : Int) :
    (cost_function x y data_one_place true n).1 = score_at x y := by
  rw [score_at_eq]
  simp only [cost_function, sum_dist_chained, data_one_place, List.foldl, chained_step,
    place_equator_06, Bool.not_true, Bool.false_eq_true, if_false, zero_add]
  unfold calc_distance
  rw [haversine_a_symm]

theorem chained_start_state_eq :
    chained_start_state
      = { x := 0, y := 0.594, value := score_at 0 0.594, dx := 0, dy := 1, iter := 0,
          func_evals := 0 } := by
  have hb : main_bounding_box data_one_place
      = { min_x := 0, min_y := 0, max_x := 0, max_y := 0.6 } := by
    simp only [main_bounding_box, min_max_finder, data_one_place, List.foldl, min_max_step,
      place_equator_06, Bounds.mk.injEq]
    norm_num
  have hy : random_number_generator 0.6 0 100 99 = 0.594 := by
    norm_num [random_number_generator]
  have hx : random_number_generator 0 0 100 0 = 0 := by
    norm_num [random_number_generator]
  simp only [chained_start_state, main_chained_start, hb, hx, hy, chained_score_eq]
  rfl

/-- The first round of the chained hill climb from `chained_start_state`. -/
theorem chained_first_round :
    hill_round data_one_place true chained_start_state = chained_middle_state := by
  rw [chained_start_state_eq]
  rw [hill_round_unique_best data_one_place true _ (0, 1) (by simp [neighbour_offsets])]
  · simp only [chained_middle_state, HubState.mk.injEq, neighbour_score, chained_score_eq]
    norm_num [step, score_at]
  · show score_at 0 0.594 ≤ (cost_function _ _ data_one_place true 0).1
    rw [chained_score_eq]
    apply le_of_lt
    apply score_at_lt <;> norm_num [step]
  · intro q hq hne
    simp only [neighbour_score, chained_score_eq]
    simp only [neighbour_offsets, List.mem_cons, List.mem_singleton, List.not_mem_nil,
      or_false] at hq
    rcases hq with rfl | rfl | rfl | rfl | rfl | rfl | rfl | rfl
    all_goals first
      | exact absurd rfl hne
      | (apply score_at_lt <;> norm_num [step])

theorem chained_middle_state_neighbours (i j : Int) (hi : i = -1 ∨ i = 0 ∨ i = 1)
    (hj : j = -1 ∨ j = 0 ∨ j = 1) (h0 : ¬(i = 0 ∧ j = 0)) :
    (cost_function (chained_middle_state.x + step * i) (chained_middle_state.y + step * j)
      data_one_place true 0).1 < chained_middle_state.value := by
  show _ < (cost_function 0 0.604 data_one_place true 0).1
  rw [chained_score_eq, chained_score_eq]
  rcases hi with rfl | rfl | rfl <;> rcases hj with rfl | rfl | rfl
  all_goals first
    | exact (h0 (by decide)).elim
    | (apply score_at_lt <;> norm_num [chained_middle_state, step])

theorem chained_second_round :
    hill_round data_one_place true chained_middle_state = chained_final_state := by
  rw [hill_round_no_improvement data_one_place true chained_middle_state
    chained_middle_state_neighbours]
  simp only [chained_middle_state, chained_final_state, HubState.mk.injEq]
  norm_num [step]

theorem hill_loop_chained :
    hill_loop data_one_place true 2 chained_start_state = some chained_final_state := by
  have h1 : chained_start_state.value < chained_middle_state.value := by
    rw [chained_start_state_eq]
    show score_at 0 0.594 < (cost_function 0 0.604 data_one_place true 0).1
    rw [chained_score_eq]
    exact score_at_middle_gt
  have h2 : ¬(chained_final_state.value > chained_middle_state.value) := lt_irrefl _
  simp only [hill_loop, chained_first_round, chained_second_round, gt_iff_lt, h1, if_true]
  rw [if_neg h2]

theorem scan_step_2hubs_func_evals (a b c d : ℝ) (data : List Columns) (acc : Scan)
    (i j : Int) (h0 : ¬(i = 0 ∧ j = 0)) :
    (scan_step_2hubs a b c d data acc i j).func_evals = acc.func_evals + 1 := by
  simp only [scan_step_2hubs, if_neg h0]
  split <;> rfl

/-- A two-hub round evaluates the cost function 8 times and adds 1 to `iter`. -/
theorem hill_round_2hubs_counts (data : List Columns) (s : TwoHubState) :
    (hill_round_2hubs data s).func_evals = s.func_evals + 8
      ∧ (hill_round_2hubs data s).iter = s.iter + 1 := by
  refine ⟨?_, rfl⟩
  have skip : ∀ acc : Scan,
      scan_step_2hubs s.hub1_x s.hub1_y s.hub2_x s.hub2_y data acc 0 0 = acc := by
    intro acc
    simp [scan_step_2hubs]
  simp only [hill_round_2hubs, neighbour_scan_2hubs, List.foldl, skip]
  rw [scan_step_2hubs_func_evals _ _ _ _ _ _ _ _ (by decide),
    scan_step_2hubs_func_evals _ _ _ _ _ _ _ _ (by decide),
    scan_step_2hubs_func_evals _ _ _ _ _ _ _ _ (by decide),
    scan_step_2hubs_func_evals _ _ _ _ _ _ _ _ (by decide),
    scan_step_2hubs_func_evals _ _ _ _ _ _ _ _ (by decide),
    scan_step_2hubs_func_evals _ _ _ _ _ _ _ _ (by decide),
    scan_step_2hubs_func_evals _ _ _ _ _ _ _ _ (by decide),
    scan_step_2hubs_func_evals _ _ _ _ _ _ _ _ (by decide)]
  ring

theorem hill_loop_2hubs_counts (data : List Columns) (fuel : Nat)
    (s t : TwoHubState) (h : hill_loop_2hubs data fuel s = some t) :
    t.func_evals - s.func_evals = 8 * (t.iter - s.iter) ∧ s.iter + 1 ≤ t.iter := by
  induction fuel generalizing s with
  | zero => simp [hill_loop_2hubs] at h
  | succ fuel ih =>
    simp only [hill_loop_2hubs] at h
    have hc := hill_round_2hubs_counts data s
    split at h
    · have h2 := ih _ h
      constructor <;> omega
    · cases h
      constructor <;> omega

/-- The counts that the three scenarios of `main` report, for every input on which the
three loops end: `1 + 8 k` for the round-trip scenario, and `8 k` for the chained and the
two-hub scenario, where `k` is the number of rounds of the scenario. -/
theorem main_scenarios_counts (data : List Columns)
    (rand1 rand2 rand3 rand4 rand5 rand6 rand7 rand8 : Nat) (dx dy : Int) (fuel : Nat)
    (s1 s2 : HubState) (s3 : TwoHubState)
    (h : main_scenarios data rand1 rand2 rand3 rand4 rand5 rand6 rand7 rand8 dx dy fuel
      = some (s1, s2, s3)) :
    s1.func_evals = 1 + 8 * s1.iter ∧ 1 ≤ s1.iter
      ∧ s2.func_evals = 8 * s2.iter ∧ 1 ≤ s2.iter
      ∧ s3.func_evals = 8 * (s3.iter - s2.iter) ∧ 1 ≤ s3.iter - s2.iter := by
  unfold main_scenarios at h
  split at h
  · cases h
  · rename_i t1 h1
    split at h
    · cases h
    · rename_i t2 h2
      split at h
      · cases h
      · rename_i t3 h3
        simp only [Option.some.injEq, Prod.mk.injEq] at h
        obtain ⟨rfl, rfl, rfl⟩ := h
        have c1 := hill_loop_counts _ _ _ _ _ h1
        have c2 := hill_loop_counts _ _ _ _ _ h2
        have c3 := hill_loop_2hubs_counts _ _ _ _ h3
        have e1 : (main_round_trip_start data rand1 rand2 dx dy).func_evals = 1 := rfl
        have e2 : (main_round_trip_start data rand1 rand2 dx dy).iter = 0 := rfl
        have e3 : (main_chained_start data rand3 rand4 t1).func_evals = 0 := rfl
        have e4 : (main_chained_start data rand3 rand4 t1).iter = 0 := rfl
        have e5 : (main_2hubs_start data rand5 rand6 rand7 rand8 t2).func_evals = 0 := rfl
        have e6 : (main_2hubs_start data rand5 rand6 rand7 rand8 t2).iter = t2.iter := rfl
        rw [e1, e2] at c1
        rw [e3, e4] at c2
        rw [e5, e6] at c3
        refine ⟨?_, ?_, ?_, ?_, ?_, ?_⟩ <;> omega

/-- C15 (the code departs from the claim). On `data_one_place` with `rand ()` values 0, 99,
0, 99: the round-trip scenario ends after 2 rounds and reports `17 = 1 + 8 * 2`
evaluations. The chained scenario makes its first evaluation (line 284) with the counter
at 17, not 0; line 286 then sets the counter to 0; the loop ends after 2 rounds and the
count reported is `16 = 8 * 2`, although the scenario evaluated the cost function
`1 + 8 * 2` times. -/
theorem chained_scenario_count :
    hill_loop data_one_place false 2 (main_round_trip_start data_one_place 0 99 0 0)
        = some final_state
      ∧ final_state.func_evals = 1 + 8 * final_state.iter
      ∧ (cost_function 0 0.594 data_one_place true final_state.func_evals).2 = 18
      ∧ main_chained_start data_one_place 0 99 final_state = chained_start_state
      ∧ chained_start_state.x = 0 ∧ chained_start_state.y = 0.594
      ∧ chained_start_state.func_evals = 0
      ∧ hill_loop data_one_place true 2 chained_start_state = some chained_final_state
      ∧ chained_final_state.iter = 2
      ∧ chained_final_state.func_evals = 16
      ∧ chained_final_state.func_evals ≠ 1 + 8 * chained_final_state.iter := by
  refine ⟨hill_loop_from_start 0 0, by decide, by decide, rfl, ?_, ?_, rfl,
    hill_loop_chained, rfl, rfl, by decide⟩
  · rw [chained_start_state_eq]
  · rw [chained_start_state_eq]

/-! ## The evaluation counter and the frame of a call -/

theorem sum_dist_round_trip_single (p : Columns) :
    sum_dist_round_trip p.latitude p.longitude [p] = 0 := by
  simp [sum_dist_round_trip, calc_distance_same_point]

theorem sum_dist_chained_single (p : Columns) :
    sum_dist_chained p.latitude p.longitude [p] = 0 := by
  simp [sum_dist_chained, chained_step, calc_distance_same_point]

/-- C16, counterexample. With the hub on the single place of `data_one_place`, a call of
`cost_function` evaluates the division of line 102 with the divisor `sum_dist = 0`, for the
round-trip and for the chained variant: the log of divisions performed by the call is the
one division `1 / 0`. -/
theorem cost_function_divides_by_zero :
    (cost_function_logged 0 0.6 data_one_place false 0 []).2.2
        = [{ dividend := 1, divisor := 0 }]
      ∧ (cost_function_logged 0 0.6 data_one_place true 0 []).2.2
        = [{ dividend := 1, divisor := 0 }] := by
  have h1 := sum_dist_round_trip_single place_equator_06
  have h2 := sum_dist_chained_single place_equator_06
  have e1 : sum_dist_round_trip 0 0.6 data_one_place = 0 := h1
  have e2 : sum_dist_chained 0 0.6 data_one_place = 0 := h2
  constructor
  · simp only [cost_function_logged, divide_one, Bool.not_false, if_true, e1, List.nil_append]
  · simp only [cost_function_logged, divide_one, Bool.not_true, Bool.false_eq_true, if_false,
      e2, List.nil_append]

/-- C16, as amended. Every call of `cost_function` performs the division `1 / sum_dist`
exactly once, whatever `sum_dist` is, and returns its value; the score and the counter are
those of `cost_function`. For a single place that coincides with the hub (either variant)
and for an empty place list the division performed is `1 / 0` and the score returned is
its IEEE-754 value `+inf`. -/
theorem cost_function_divides_unconditionally (x y : ℝ) (data : List Columns)
    (improve : Bool) (func_evals : Int) (log : List Division) :
    (cost_function_logged x y data improve func_evals log).2.2
        = log ++ [{ dividend := 1,
                    divisor := if improve then sum_dist_chained x y data
                      else sum_dist_round_trip x y data }]
      ∧ (cost_function_logged x y data improve func_evals log).1
          = (cost_function x y data improve func_evals).1
      ∧ (cost_function_logged x y data improve func_evals log).2.1
          = (cost_function x y data improve func_evals).2
      ∧ (∀ p : Columns,
          cost_function_logged p.latitude p.longitude [p] improve func_evals log
            = (⊤, func_evals + 1, log ++ [{ dividend := 1, divisor := 0 }]))
      ∧ cost_function_logged x y [] improve func_evals log
          = (⊤, func_evals + 1, log ++ [{ dividend := 1, divisor := 0 }]) := by
  have h0 : recip 0 = ⊤ := by simp [recip]
  refine ⟨?_, rfl, rfl, ?_, ?_⟩
  · cases improve <;> simp [cost_function_logged, divide_one]
  · intro p
    cases improve
    · simp only [cost_function_logged, divide_one, Bool.not_false, if_true,
        sum_dist_round_trip_single, h0]
    · simp only [cost_function_logged, divide_one, Bool.not_true, Bool.false_eq_true,
        if_false, sum_dist_chained_single, h0]
  · cases improve <;>
      simp [cost_function_logged, divide_one, sum_dist_round_trip, sum_dist_chained, h0]

end

end OptimalDeliveryHubs
